import Mathlib

/-!
A shallow embedding of the telesaver archiving engine (telesaver.py,
sqlitestorage.py, util.py): the persistent store's upsert/diff semantics, the
change-detection/merge algorithm (`DialogSaver.check_changed`), the
content-addressed media materializer (`DialogSaver.save_media`), and the
backfill scan loop (`DialogSaver.run`).

Modelling conventions:
- Python dicts become association lists (`List (String × Val)`); insertion
  order is preserved, keys are unique in every reachable state.
- Python values become the inductive `Val`; `Val.vnull` is Python `None`.
- Datetime instants are naturals; the UTC `strftime`/`strptime` round trip of
  sqlitestorage.py is modelled by `toString`/`String.toNat?` (the claims under
  study do not depend on the concrete textual format).
- The SHA-256 content hash (`util.file_hash`) is an abstract parameter
  `hashFn : String → String` over file contents modelled as strings.
- The filesystem is an association list from absolute path to content.
- SQLite tables become lists of rows; `INSERT OR REPLACE` replaces in place
  the row with the same primary key, and query order is list order.
-/

namespace Telesaver

/-- Python values as they occur in message dicts: `vnull` is `None`,
`vtime` a (timezone-aware) `datetime`, `vlist` the edit-history list, whose
entries are prior text values — strings, or `None` for a message that had no
text (`check_changed` appends `known_message.get('text')`). -/
inductive Val where
  | vnull : Val
  | vint : Int → Val
  | vstr : String → Val
  | vbool : Bool → Val
  | vtime : Nat → Val
  | vlist : List (Option String) → Val
deriving DecidableEq, Repr

/-- Python truthiness of a value (`if v:`). `datetime` objects are always
truthy. -/
def pyTruthy : Val → Bool
  | .vnull => false
  | .vint n => n != 0
  | .vstr s => s != ""
  | .vbool b => b
  | .vtime _ => true
  | .vlist l => !l.isEmpty

/-- A message dict: insertion-ordered association list. -/
abbrev Msg := List (String × Val)

/-- First-match association lookup (Python `d[k]` / `d.get(k)` key search). -/
def lookupA {α β : Type} [DecidableEq α] : List (α × β) → α → Option β
  | [], _ => none
  | kv :: rest, k => if kv.1 = k then some kv.2 else lookupA rest k

/-- `k in d` on a dict. -/
def hasKey {α β : Type} [DecidableEq α] (m : List (α × β)) (k : α) : Bool :=
  (lookupA m k).isSome

/-- `d[k] = v`: update in place if the key exists, else append (Python dict
insertion order). -/
def setA {α β : Type} [DecidableEq α] : List (α × β) → α → β → List (α × β)
  | [], k, v => [(k, v)]
  | kv :: rest, k, v => if kv.1 = k then (k, v) :: rest else kv :: setA rest k v

/-- Python `d.get(k)`: the value, or `None` when the key is absent. -/
def pyGet (m : Msg) (k : String) : Val :=
  (lookupA m k).getD .vnull

/-- `{k: v for k, v in msg.items() if v}` — drop falsy values. -/
def dropFalsy (m : Msg) : Msg :=
  m.filter (fun kv => pyTruthy kv.2)

/-- Python `a.update(b)` / `{**a, **b}`: values of `a` overridden by `b`,
new keys of `b` appended in order. -/
def pyUpdate (a b : Msg) : Msg :=
  a.map (fun kv => (kv.1, (lookupA b kv.1).getD kv.2)) ++
    b.filter (fun kv => !hasKey a kv.1)

/-- Python `d.pop(k)` (the removal part; our callers use the value separately). -/
def popKey (m : Msg) (k : String) : Msg :=
  m.filter (fun kv => kv.1 ≠ k)

/-- util.slugify: keep only filesystem-safe characters. (The NFKD/ASCII
normalization step drops non-ASCII characters, which the filter below does
as well; accent decomposition of the external `unicodedata` is not modelled.) -/
def slugifyChars : List Char :=
  "-_.() abcdefghijklmnopqrstuvwxyzABCDEFGHIJKLMNOPQRSTUVWXYZ0123456789".toList

def slugify (s : String) : String :=
  String.mk (s.toList.filter (fun c => c ∈ slugifyChars))

/-- sqlitestorage.DB_FIELDS. -/
def DB_FIELDS : List String := ["id", "datetime", "text", "sender", "media"]

/-- sqlitestorage.DATETIME_FIELDS. -/
def DATETIME_FIELDS : List String := ["datetime", "edit_date", "read_time"]

/-- Serialization of a datetime to its stored string (strftime TIME_FORMAT). -/
def timeStr (t : Nat) : String := toString t

/-- Digit parsing over the character list (kernel-evaluable equivalent of
`String.toNat?`). -/
def parseTimeDigits : List Char → Nat → Option Nat
  | [], acc => some acc
  | c :: cs, acc =>
      if c.isDigit then parseTimeDigits cs (acc * 10 + (c.toNat - 48))
      else none

/-- util.parse_time: parse a stored datetime string back to an instant;
`none` models the raised exception on an unparseable string. -/
def parseTime (s : String) : Option Val :=
  match s.toList with
  | [] => none
  | cs => (parseTimeDigits cs 0).map .vtime

/-- One row of the `messages` table: the five fixed columns (nullable except
`dialog`) plus the serialized `extra` side-map. -/
structure Row where
  dialog : Int
  id : Option Val
  datetime : Option Val
  text : Option Val
  sender : Option Val
  media : Option Val
  extra : Msg
deriving DecidableEq, Repr

/-- One row of the `dialogs` table (also the in-process `dialog_names` cache,
which `add_dialog` keeps identical to the table). -/
structure DialogRec where
  name : String
  folder : String
deriving DecidableEq, Repr

/-- sqlitestorage.Store: the two tables, the dirty flag, and a counter of the
transaction commits actually performed (observing `conn.commit()`). -/
structure Store where
  messages : List Row
  dialogs : List (Int × DialogRec)
  changed : Bool
  commits : Nat
deriving DecidableEq, Repr

/-- Primary key of a messages row: `(dialog, id)`. -/
def rowKey (r : Row) : Int × Option Val := (r.dialog, r.id)

/-- `INSERT OR REPLACE` keyed by `(dialog, id)`: replace in place, else append. -/
def putRow : List Row → Row → List Row
  | [], r => [r]
  | x :: xs, r => if rowKey x = rowKey r then r :: xs else x :: putRow xs r

/-- Row lookup by primary key. -/
def rowLookup (l : List Row) (k : Int × Option Val) : Option Row :=
  l.find? (fun r => rowKey r == k)

/-- One step of add_msg's datetime serialization: a truthy `datetime` value
on the given field is rendered to its stored string. (The `float` timestamp
branch of the source is not modelled: no reachable value here is a float.) -/
def serializeField (m : Msg) (f : String) : Msg :=
  match lookupA m f with
  | some v =>
      if pyTruthy v then
        match v with
        | .vtime t => setA m f (.vstr (timeStr t))
        | _ => m
      else m
  | none => m

def serializeTimes (msg : Msg) : Msg :=
  DATETIME_FIELDS.foldl serializeField msg

/-- The row add_msg assembles: fixed columns from the serialized message,
everything else in the `extra` side-map. -/
def mkRow (dialogId : Int) (msg0 : Msg) : Row :=
  let msg := serializeTimes msg0
  { dialog := dialogId
    id := lookupA msg "id"
    datetime := lookupA msg "datetime"
    text := lookupA msg "text"
    sender := lookupA msg "sender"
    media := lookupA msg "media"
    extra := msg.filter (fun kv => kv.1 ∉ DB_FIELDS) }

/-- Store.add_msg: insert-or-replace keyed by `(dialog, id)`; returns the
store unchanged (a logged warning aside) when the message lacks a
`datetime` key. -/
def addMsg (st : Store) (dialogId : Int) (msg0 : Msg) : Store :=
  if hasKey msg0 "datetime" then
    { st with messages := putRow st.messages (mkRow dialogId msg0),
              changed := true }
  else st

/-- Store.add_dialog: insert-or-replace in the dialogs table and refresh the
`dialog_names` cache. -/
def addDialog (st : Store) (dialogId : Int) (name folder : String) : Store :=
  { st with dialogs := setA st.dialogs dialogId ⟨name, folder⟩, changed := true }

/-- Store.save (`flush()`): commit only if the dirty flag was set since the
last flush; otherwise a no-op. -/
def saveStore (st : Store) : Store :=
  if st.changed then { st with changed := false, commits := st.commits + 1 }
  else st

/-- get_messages_from_cursor's per-row `get_msg`: merge the fixed columns with
the side-map, optionally add the `dialog` column, parse stored datetime
strings back, and drop falsy values. (A parse failure raises in Python; it is
totalized as leaving the string in place and is unreachable for rows written
by `addMsg`.) -/
def parseField (acc : Msg) (f : String) : Msg :=
  match lookupA acc f with
  | some (.vstr s) =>
      match parseTime s with
      | some v => setA acc f v
      | none => acc
  | _ => acc

def parseTimesRead (m : Msg) : Msg :=
  DATETIME_FIELDS.foldl parseField m

def getMsg (r : Row) (withDialog : Bool) : Msg :=
  let base : Msg :=
    [("id", r.id.getD .vnull), ("datetime", r.datetime.getD .vnull),
     ("text", r.text.getD .vnull), ("sender", r.sender.getD .vnull),
     ("media", r.media.getD .vnull)] ++ r.extra
  let base := if withDialog then setA base "dialog" (.vint r.dialog) else base
  dropFalsy (parseTimesRead base)

/-- The dict comprehension `{r[0]: get_msg(r) for r in rows}`: built in query
order, a later row with the same id overwrites an earlier one. -/
def buildDictV (rows : List Row) (withDialog : Bool) : List (Val × Msg) :=
  rows.foldl (fun acc r => setA acc (r.id.getD .vnull) (getMsg r withDialog)) []

/-- Store.known_messages: all messages of one dialog, keyed by id. -/
def knownMessages (st : Store) (d : Int) : List (Val × Msg) :=
  buildDictV (st.messages.filter (fun r => r.dialog == d)) false

/-- Store.known_message: lookup by message id alone (`where id=?`), the
`dialog` column carried as an attribute; `None` when no row matches. -/
def knownMessage (st : Store) (mid : Int) : Option Msg :=
  let rs := st.messages.filter (fun r => r.id == some (.vint mid))
  let records := buildDictV rs true
  if records.isEmpty then none else lookupA records (.vint mid)

/-- Store.known_media_hash: the `media` column of every message whose
side-map records the given content hash (store-wide). -/
def knownMediaHash (st : Store) (h : String) : List (Option Val) :=
  (st.messages.filter (fun r => lookupA r.extra "hash" == some (.vstr h))).map
    (fun r => r.media)

/-- The filesystem under the current directory: absolute path → file bytes. -/
abbrev FS := List (String × String)

def fsHas (fs : FS) (p : String) : Bool := hasKey fs p

/-- `copy_in_folder` (directory creation is implicit in the map model). -/
def fsWrite (fs : FS) (p c : String) : FS := setA fs p c

/-- os.path.join for the two-component joins used here. -/
def pathJoin (a b : String) : String := if a = "" then b else a ++ "/" ++ b

/-- DialogSaver: the store plus the single-dialog cache of known messages
(`_known_dialog_id` / `_known`) and the change detector's dirty flag. -/
structure Saver where
  store : Store
  knownDialog : Option Int
  known : List (Val × Msg)
  changed : Bool
deriving DecidableEq, Repr

/-- A freshly constructed DialogSaver over a store. -/
def mkSaver (st : Store) : Saver :=
  { store := st, knownDialog := none, known := [], changed := false }

/-- DialogSaver.known: return the cached messages of the dialog, reloading
the cache from the store when a different dialog is requested. -/
def knownLoad (s : Saver) (d : Int) : Saver × List (Val × Msg) :=
  if s.knownDialog = some d then (s, s.known)
  else
    let k := knownMessages s.store d
    ({ s with knownDialog := some d, known := k }, k)

/-- DialogSaver.get_folder_name: the stored folder of a known dialog, else a
slug of the given name. (For an unknown dialog with no name the source hits
an assertion; that case is not reachable below.) -/
def getFolderName (st : Store) (d : Int) (name : Option String) : Option String :=
  match lookupA st.dialogs d with
  | some rec => some rec.folder
  | none => name.map slugify

/-- DialogSaver.save_dialog: upsert the dialog when it is new or its display
name changed; the folder comes from `get_folder_name`, i.e. the stored folder
when the dialog is already known. -/
def saveDialog (st : Store) (d : Int) (name : String) : Store :=
  match lookupA st.dialogs d with
  | some rec => if rec.name ≠ name then addDialog st d name rec.folder else st
  | none => addDialog st d name (slugify name)

/-- The `prev` edit-history append of check_changed:
`if 'prev' not in msg: msg['prev'] = []` then
`msg['prev'].append(known_message.get('text'))`. Appending to a non-list
would raise in Python and is unreachable; it is totalized as a no-op. -/
def asTextEntry : Val → Option String
  | .vstr s => some s
  | _ => none

def appendPrev (m km : Msg) : Msg :=
  let entry := asTextEntry (pyGet km "text")
  match lookupA m "prev" with
  | none => setA m "prev" (.vlist [entry])
  | some (.vlist l) => setA m "prev" (.vlist (l ++ [entry]))
  | some _ => m

/-- The merge loop of check_changed: every attribute of the prior version
missing from the new observation is appended (in the prior version's order). -/
def mergeKnown (km msg : Msg) : Msg :=
  msg ++ km.filter (fun kv => !hasKey msg kv.1)

/-- DialogSaver.check_changed on a single message: given the cached prior
version (if any) and the new observation, return the merged message and
whether the detector flags a change (`self.changed = True`).
Python's `if not known_message` treats an empty prior dict like a missing one.
The in-place `msg['prev'].append` aliases the prior version's list when
`prev` was just copied by the merge loop, so in Python the final comparison
sees equal `prev` values; whenever the append fires the texts differ, so the
flag below coincides with the source on every input. -/
def checkChanged (known : Option Msg) (msg : Msg) : Msg × Bool :=
  match known with
  | none => (msg, true)
  | some km =>
      if km.isEmpty then (msg, true)
      else
        let m1 := mergeKnown km msg
        let m2 := if pyGet m1 "text" ≠ pyGet km "text" then appendPrev m1 km else m1
        let fired := m2.any (fun kv => !(pyGet m2 kv.1 == pyGet km kv.1))
        (m2, fired)

/-- The media descriptor of an observed message, as the external client
exposes it: the deterministic candidate filename that `get_media_name`
derives (none for unsupported/expired media), the bytes a download would
deliver (none models a failed download), the optional time-to-live, and
whether the media kind is in DONT_SAVE_MEDIA_TYPES. -/
structure MediaDesc where
  name : Option String
  content : Option String
  ttl : Option Int
  dontSave : Bool
deriving DecidableEq, Repr

/-- One observed message, as process_message reads it off the wire object. -/
structure Obs where
  id : Int
  text : String
  sender : Option Int
  date : Nat
  silent : Bool
  fromScheduled : Bool
  editDate : Option Nat
  media : Option MediaDesc
deriving DecidableEq, Repr

/-- The fixed-attribute dict process_message assembles, Falsey values
dropped. `sender` is `None` when self-authored (the caller passes none). -/
def buildMsg (o : Obs) : Msg :=
  dropFalsy
    [("id", .vint o.id), ("text", .vstr o.text),
     ("sender", match o.sender with | some n => .vint n | none => .vnull),
     ("datetime", .vtime o.date), ("silent", .vbool o.silent),
     ("from_scheduled", .vbool o.fromScheduled),
     ("edit_date", match o.editDate with | some t => .vtime t | none => .vnull)]

/-- A `media` column value read back as the path string. A non-string value
here would raise in Python; unreachable in the states we consider. -/
def optValStr : Option Val → String
  | some (.vstr s) => s
  | _ => ""

def valStr : Val → String
  | .vstr s => s
  | _ => ""

/-- DialogSaver.save_media: resolve the message's media to a canonical,
deduplicated path under `store/`. Returns the updated filesystem, the saver
(its dialog cache may have been loaded), and the metadata dict
(hash/size/self_destructing/media as applicable). The re-delivery of
self-destructing media to the archiving account is an external send and has
no effect on the modelled state; `os.utime` is metadata-only and likewise
not modelled. -/
def saveMedia (hashFn : String → String) (fs : FS) (s : Saver) (d : Int)
    (o : Obs) (md : MediaDesc) : FS × Saver × Msg :=
  let ls := knownLoad s d
  let s := ls.1
  let known := ls.2
  -- full_path: `none` models the early `return {}` paths (unsupported media,
  -- or the failed assertion for an unregistered dialog).
  let fp : Option Val :=
    match lookupA known (.vint o.id) with
    | some km => some (pyGet km "media")
    | none =>
        match md.name with
        | none => none
        | some nm =>
            match lookupA s.store.dialogs d with
            | none => none
            | some rec => some (.vstr (pathJoin rec.folder nm))
  match fp with
  | none => (fs, s, [])
  | some fpv =>
      if pyTruthy fpv then
        let p := valStr fpv
        if fsHas fs ("store/" ++ p) then (fs, s, [("media", fpv)])
        else
          match md.content with
          | none => (fs, s, [])  -- `if not path: return {}` (download failed)
          | some c =>
              let h := hashFn c
              let meta0 : Msg := [("hash", .vstr h), ("size", .vint c.length)]
              let kh := knownMediaHash s.store h
              let pn : String × Bool :=
                match kh with
                | [] => (p, true)
                | v :: _ =>
                    let q := optValStr v
                    (q, !fsHas fs ("store/" ++ q))
              let fs2 := if pn.2 then fsWrite fs ("store/" ++ pn.1) c else fs
              let meta1 :=
                if pn.2 then
                  match md.ttl with
                  | some ttl => if ttl != 0 then
                        meta0 ++ [("self_destructing", .vint ttl)]
                      else meta0
                  | none => meta0
                else meta0
              (fs2, s, meta1 ++ [("media", .vstr pn.1)])
      else (fs, s, [("media", fpv)])  -- `metadata['media'] = full_path` (falsy)

/-- The message-assembly part of process_message: the fixed attributes plus,
for saveable media, the metadata save_media resolves. -/
def assembleMsg (hashFn : String → String) (fs : FS) (s : Saver) (d : Int)
    (o : Obs) : FS × Saver × Msg :=
  let msg0 := buildMsg o
  match o.media with
  | none => (fs, s, msg0)
  | some md =>
      if md.dontSave then (fs, s, msg0)
      else
        let r := saveMedia hashFn fs s d o md
        (r.1, r.2.1, pyUpdate msg0 r.2.2)

/-- DialogSaver.process_message (commit=False as in the backfill loop):
run the change detector, record whether the message was already known,
upsert into the store and update the dialog cache. Returns the updated
filesystem and saver and the `is_known_message` result. -/
def processMessage (hashFn : String → String) (fs : FS) (s : Saver) (d : Int)
    (o : Obs) : FS × Saver × Bool :=
  let a := assembleMsg hashFn fs s d o
  let fs := a.1
  let ls := knownLoad a.2.1 d
  let s := ls.1
  let known := ls.2
  let cc := checkChanged (lookupA known (.vint o.id)) a.2.2
  let isKnown := (lookupA known (.vint o.id)).isSome
  let store' := addMsg s.store d cc.1
  let known' := setA known (.vint o.id) cc.1
  (fs,
   { store := store', knownDialog := some d, known := known',
     changed := s.changed || cc.2 },
   isKnown)

/-- DialogSaver.set_message_attributes: look the message up by id alone,
merge the attribute update, and upsert into the dialog recorded on that one
row (commit flag as passed). For an unknown message, or one whose recorded
dialog is missing/falsy, nothing is written (the source logs and returns;
a missing `dialog` key would raise at `pop`, totalized here as the same
no-write outcome). -/
def setMessageAttributes (s : Saver) (mid : Int) (attrs : Msg) (commit : Bool) :
    Saver :=
  let found := knownMessage s.store mid
  let kmd : Msg × Option Int :=
    match found with
    | none => ([("id", .vint mid)], none)
    | some km0 =>
        (popKey km0 "dialog",
         match lookupA km0 "dialog" with
         | some (.vint dd) => if dd = 0 then none else some dd
         | _ => none)
  match kmd.2 with
  | none => s
  | some d =>
      let msg := pyUpdate kmd.1 attrs
      let ls := knownLoad s d
      let s := ls.1
      let known := ls.2
      let known' := if hasKey known (.vint mid) then setA known (.vint mid) msg
        else known
      let st' := addMsg s.store d msg
      let st'' := if commit then saveStore st' else st'
      { s with store := st'', known := known' }

/-- The `recent_only` stop policy of DialogSaver.run: `False` walks all of
history, `True` stops at the first already-known message, a datetime stops
below a cutoff instant. -/
inductive RecentOnly where
  | rfalse : RecentOnly
  | rtrue : RecentOnly
  | rdate : Nat → RecentOnly
deriving DecidableEq, Repr

/-- Does the current message trigger the exit condition, evaluated after the
message has been processed? -/
def stopsHere (p : RecentOnly) (isKnown : Bool) (o : Obs) : Bool :=
  match p with
  | .rfalse => false
  | .rtrue => isKnown
  | .rdate t => o.date < t

/-- The inner message loop of DialogSaver.run for one dialog: newest-first
messages, each processed (commit=False) before the exit conditions are
checked. -/
def scanDialog (hashFn : String → String) (fs : FS) (s : Saver) (d : Int) :
    List Obs → RecentOnly → FS × Saver
  | [], _ => (fs, s)
  | o :: rest, p =>
      let r := processMessage hashFn fs s d o
      if stopsHere p r.2.2 o then (r.1, r.2.1)
      else scanDialog hashFn r.1 r.2.1 d rest p

/-- Observer of the same loop: the message that triggers the stop, if the
scan exits early. -/
def stopObs (hashFn : String → String) (fs : FS) (s : Saver) (d : Int) :
    List Obs → RecentOnly → Option Obs
  | [], _ => none
  | o :: rest, p =>
      let r := processMessage hashFn fs s d o
      if stopsHere p r.2.2 o then some o
      else stopObs hashFn r.1 r.2.1 d rest p

/-- One dialog of a backfill run: its id, display name, and newest-first
message history (dialogs already filtered by the channel/archived filter). -/
structure DialogIn where
  id : Int
  name : String
  msgs : List Obs
deriving Repr

/-- The dialog loop of DialogSaver.run: save the dialog, then scan its
messages. No flush happens anywhere in here. -/
def scanAll (hashFn : String → String) : FS → Saver → List DialogIn →
    RecentOnly → FS × Saver
  | fs, s, [], _ => (fs, s)
  | fs, s, di :: rest, p =>
      let s1 := { s with store := saveDialog s.store di.id di.name }
      let r := scanDialog hashFn fs s1 di.id di.msgs p
      scanAll hashFn r.1 r.2 rest p

/-- DialogSaver.run: scan every dialog, then flush the store once. -/
def runBackfill (hashFn : String → String) (fs : FS) (s : Saver)
    (dialogs : List DialogIn) (p : RecentOnly) : FS × Saver :=
  let r := scanAll hashFn fs s dialogs p
  (r.1, { r.2 with store := saveStore r.2.store })

/-- A store with empty tables (a fresh `store.sqlite`). -/
def emptyStore : Store :=
  { messages := [], dialogs := [], changed := false, commits := 0 }

/-- An observation carrying only a text: the shape successive sightings of
one edited message take (no media, no flags, not scheduled, self-authored). -/
def mkTextObs (i : Int) (t : String) (ts : Nat) : Obs :=
  { id := i, text := t, sender := none, date := ts, silent := false,
    fromScheduled := false, editDate := none, media := none }

/-- An observation carrying downloadable media: candidate filename `nm`
(from get_media_name), download content `c`, no time-to-live, a media kind
that is saved. -/
def mkMediaObs (i : Int) (ts : Nat) (nm c : String) : Obs :=
  { id := i, text := "", sender := none, date := ts, silent := false,
    fromScheduled := false, editDate := none,
    media := some { name := some nm, content := some c, ttl := none,
                    dontSave := false } }

/-- Thread a list of observations of one message through `process_message`. -/
def foldTexts (hashFn : String → String) (d i : Int) (acc : FS × Saver)
    (texts : List String) : FS × Saver :=
  texts.foldl
    (fun a t =>
      let r := processMessage hashFn a.1 a.2 d (mkTextObs i t 0)
      (r.1, r.2.1)) acc

/-- Process N successive text observations of one message, starting from an
empty store. -/
def processTexts (hashFn : String → String) (d i : Int)
    (texts : List String) : Saver :=
  (foldTexts hashFn d i ([], mkSaver emptyStore) texts).2

/-- Statement helper: the shape the cached record of a text-only message has
after processing — its id, current text, timestamp, and (once an edit
happened) the edit-history attribute. -/
def histMsg (i : Int) (t : String) :
    Option (List (Option String)) → Msg
  | none => [("id", .vint i), ("text", .vstr t), ("datetime", .vtime 0)]
  | some l =>
      [("id", .vint i), ("text", .vstr t), ("datetime", .vtime 0),
       ("prev", .vlist l)]

/-! ## Association-list lemmas -/

theorem lookupA_setA {α β : Type} [DecidableEq α] (l : List (α × β)) (k : α)
    (v : β) (k' : α) :
    lookupA (setA l k v) k' = if k' = k then some v else lookupA l k' := by
  induction l with
  | nil =>
      by_cases h : k' = k
      · subst h; simp [setA, lookupA]
      · have h' : ¬k = k' := fun e => h e.symm
        simp [setA, lookupA, h, h']
  | cons kv rest ih =>
      by_cases h1 : kv.1 = k
      · by_cases h2 : k' = k
        · subst h2; simp [setA, lookupA, h1]
        · have h2' : ¬k = k' := fun e => h2 e.symm
          have h3 : ¬kv.1 = k' := fun e => h2' (h1.symm.trans e)
          simp [setA, lookupA, h1, h2, h2', h3]
      · by_cases h3 : kv.1 = k'
        · have h2 : ¬k' = k := fun e => h1 (h3.trans e)
          simp [setA, lookupA, h1, h2, h3]
        · simp [setA, lookupA, h1, h3, ih]

theorem setA_self {α β : Type} [DecidableEq α] (l : List (α × β)) (k : α)
    (v : β) (h : lookupA l k = some v) : setA l k v = l := by
  induction l with
  | nil => simp [lookupA] at h
  | cons kv rest ih =>
      obtain ⟨a, b⟩ := kv
      by_cases h1 : a = k
      · subst h1
        simp [lookupA] at h
        simp [setA, h]
      · simp [lookupA, h1] at h
        simp [setA, h1, ih h]

theorem lookupA_append_some {α β : Type} [DecidableEq α] {a : List (α × β)}
    (b : List (α × β)) {k : α} {v : β} (h : lookupA a k = some v) :
    lookupA (a ++ b) k = some v := by
  induction a with
  | nil => simp [lookupA] at h
  | cons kv rest ih =>
      by_cases h1 : kv.1 = k
      · simp [lookupA, h1] at h ⊢; exact h
      · simp [lookupA, h1] at h ⊢; exact ih h

theorem lookupA_append_none {α β : Type} [DecidableEq α] {a : List (α × β)}
    (b : List (α × β)) {k : α} (h : lookupA a k = none) :
    lookupA (a ++ b) k = lookupA b k := by
  induction a with
  | nil => simp [lookupA]
  | cons kv rest ih =>
      by_cases h1 : kv.1 = k
      · simp [lookupA, h1] at h
      · simp [lookupA, h1] at h ⊢; exact ih h

theorem lookupA_filter_key {α β : Type} [DecidableEq α] (l : List (α × β))
    (p : α → Bool) (k : α) :
    lookupA (l.filter (fun kv => p kv.1)) k =
      if p k then lookupA l k else none := by
  induction l with
  | nil => simp [lookupA]
  | cons kv rest ih =>
      by_cases h1 : kv.1 = k
      · subst h1
        by_cases hp : p kv.1 <;> simp [List.filter, lookupA, hp, ih]
      · by_cases hp : p kv.1 <;> simp [List.filter, lookupA, hp, ih, h1]

theorem lookupA_isSome_append {α β : Type} [DecidableEq α] (a b : List (α × β))
    (k : α) :
    hasKey (a ++ b) k = (hasKey a k || hasKey b k) := by
  unfold hasKey
  cases h : lookupA a k with
  | some v => rw [lookupA_append_some b h]; simp [h]
  | none => rw [lookupA_append_none b h]; simp [h]

/-! ## Merge / change-detector lemmas -/

/-- New-observation values win in the merge. -/
theorem mergeKnown_lookup_new (km msg : Msg) (k : String) (v : Val)
    (h : lookupA msg k = some v) : lookupA (mergeKnown km msg) k = some v :=
  lookupA_append_some _ h

theorem lookupA_isSome_of_mem {α β : Type} [DecidableEq α]
    {m : List (α × β)} {kv : α × β} :
    kv ∈ m → (lookupA m kv.1).isSome = true := by
  induction m with
  | nil => intro h; cases h
  | cons x rest ih =>
      intro h
      by_cases hx : x.1 = kv.1
      · simp [lookupA, hx]
      · have h' : kv ∈ rest := by
          rcases List.mem_cons.mp h with he | hm
          · exact absurd (he ▸ rfl) hx
          · exact hm
        simp [lookupA, hx, ih h']

/-- Attributes absent from the new observation are carried from the prior
version. -/
theorem mergeKnown_lookup_old (km msg : Msg) (k : String)
    (h : lookupA msg k = none) :
    lookupA (mergeKnown km msg) k = lookupA km k := by
  unfold mergeKnown
  rw [lookupA_append_none _ h,
    lookupA_filter_key km (fun x => !hasKey msg x) k]
  simp [hasKey, h]

/-- Merging a message with itself changes nothing. -/
theorem mergeKnown_self (m : Msg) : mergeKnown m m = m := by
  unfold mergeKnown
  have : m.filter (fun kv => !hasKey m kv.1) = [] := by
    apply List.filter_eq_nil_iff.mpr
    intro kv hkv
    simp [hasKey, lookupA_isSome_of_mem hkv]
  rw [this, List.append_nil]

/-- `appendPrev` touches only the `prev` key. -/
theorem appendPrev_lookup_ne (m km : Msg) (k : String) (h : k ≠ "prev") :
    lookupA (appendPrev m km) k = lookupA m k := by
  unfold appendPrev
  cases hp : lookupA m "prev" with
  | none => rw [lookupA_setA]; simp [h]
  | some v =>
      cases v <;> simp only []
      all_goals first
        | rfl
        | (rw [lookupA_setA]; simp [h])

/-- Reprocessing a message identical to its stored prior version: the change
detector reports no difference and returns the message unchanged. -/
theorem checkChanged_self (m : Msg) (h : m.isEmpty = false) :
    checkChanged (some m) m = (m, false) := by
  simp [checkChanged, h, mergeKnown_self]

/-- Characterization of `{**a, **b}` lookups. -/
theorem pyUpdate_lookup (a b : Msg) (k : String) :
    lookupA (pyUpdate a b) k =
      match lookupA a k with
      | some v => some ((lookupA b k).getD v)
      | none => lookupA b k := by
  unfold pyUpdate
  cases ha : lookupA a k with
  | some v =>
      have : lookupA (a.map (fun kv => (kv.1, (lookupA b kv.1).getD kv.2))) k
          = some ((lookupA b k).getD v) := by
        induction a with
        | nil => simp [lookupA] at ha
        | cons kv rest ih =>
            by_cases h1 : kv.1 = k
            · subst h1
              simp [lookupA] at ha
              simp [lookupA, ha]
            · simp [lookupA, h1] at ha
              simp [lookupA, h1, ih ha]
      rw [lookupA_append_some _ this]
  | none =>
      have hmap : lookupA (a.map (fun kv => (kv.1, (lookupA b kv.1).getD kv.2))) k
          = none := by
        induction a with
        | nil => simp [lookupA]
        | cons kv rest ih =>
            by_cases h1 : kv.1 = k
            · simp [lookupA, h1] at ha
            · simp [lookupA, h1] at ha ⊢
              exact ih ha
      rw [lookupA_append_none _ hmap,
        lookupA_filter_key b (fun x => !hasKey a x) k]
      simp [hasKey, ha]

/-! ## Store lemmas -/

theorem rowLookup_nil (k : Int × Option Val) : rowLookup [] k = none := rfl

theorem rowLookup_cons (x : Row) (xs : List Row) (k : Int × Option Val) :
    rowLookup (x :: xs) k =
      if rowKey x = k then some x else rowLookup xs k := by
  simp only [rowLookup, List.find?]
  by_cases h : rowKey x = k
  · simp [h]
  · have hb : (rowKey x == k) = false := beq_eq_false_iff_ne.mpr h
    simp [hb, h]

theorem rowLookup_putRow (l : List Row) (r : Row) (k : Int × Option Val) :
    rowLookup (putRow l r) k = if k = rowKey r then some r else rowLookup l k := by
  induction l with
  | nil =>
      by_cases h : k = rowKey r
      · simp [putRow, rowLookup_cons, rowLookup_nil, h]
      · simp [putRow, rowLookup_cons, rowLookup_nil, h, Ne.symm h]
  | cons x xs ih =>
      by_cases h1 : rowKey x = rowKey r
      · rw [putRow, if_pos h1]
        by_cases h2 : k = rowKey r
        · simp [rowLookup_cons, h2]
        · have h3 : ¬(rowKey x = k) := fun e => h2 (e.symm.trans h1)
          simp [rowLookup_cons, h2, h3, Ne.symm h2]
      · rw [putRow, if_neg h1]
        by_cases h3 : rowKey x = k
        · have h2 : ¬(k = rowKey r) := fun e => h1 (h3.symm ▸ e)
          simp [rowLookup_cons, h2, h3]
        · simp [rowLookup_cons, h3, ih]

theorem putRow_self (l : List Row) (r : Row)
    (h : rowLookup l (rowKey r) = some r) : putRow l r = l := by
  induction l with
  | nil => simp [rowLookup_nil] at h
  | cons x xs ih =>
      rw [rowLookup_cons] at h
      by_cases h1 : rowKey x = rowKey r
      · rw [if_pos h1] at h
        injection h with h
        simp [putRow, h1, h]
      · rw [if_neg h1] at h
        simp [putRow, h1, ih h]

theorem serializeField_lookup_ne (m : Msg) (f k : String) (h : k ≠ f) :
    lookupA (serializeField m f) k = lookupA m k := by
  unfold serializeField
  cases hf : lookupA m f with
  | none => rfl
  | some v =>
      by_cases ht : pyTruthy v
      · cases v <;> simp only [ht, if_true]
        all_goals first
          | rfl
          | (rw [lookupA_setA]; simp [h])
      · simp [ht]

theorem serializeField_hasKey (m : Msg) (f k : String) :
    hasKey (serializeField m f) k = hasKey m k := by
  by_cases h : k = f
  · subst h
    unfold serializeField
    cases hf : lookupA m k with
    | none => rfl
    | some v =>
        by_cases ht : pyTruthy v
        · cases v <;> simp only [ht, if_true]
          all_goals first
            | rfl
            | (unfold hasKey; rw [lookupA_setA]; simp [hf])
        · simp [ht]
  · unfold hasKey
    rw [serializeField_lookup_ne m f k h]

/-- `serializeTimes` in applied form. -/
theorem serializeTimes_eq (m : Msg) :
    serializeTimes m =
      serializeField (serializeField (serializeField m "datetime") "edit_date")
        "read_time" := rfl

theorem serializeTimes_lookup_ne (m : Msg) (k : String)
    (h1 : k ≠ "datetime") (h2 : k ≠ "edit_date") (h3 : k ≠ "read_time") :
    lookupA (serializeTimes m) k = lookupA m k := by
  rw [serializeTimes_eq, serializeField_lookup_ne _ _ _ h3,
    serializeField_lookup_ne _ _ _ h2, serializeField_lookup_ne _ _ _ h1]

theorem serializeTimes_hasKey (m : Msg) (k : String) :
    hasKey (serializeTimes m) k = hasKey m k := by
  rw [serializeTimes_eq, serializeField_hasKey, serializeField_hasKey,
    serializeField_hasKey]

/-- The primary key of the row `add_msg` writes. -/
theorem mkRow_key (d : Int) (m : Msg) :
    rowKey (mkRow d m) = (d, lookupA m "id") := by
  unfold rowKey mkRow
  simp [serializeTimes_lookup_ne m "id"]

theorem addMsg_of_no_datetime (st : Store) (d : Int) (m : Msg)
    (h : hasKey m "datetime" = false) : addMsg st d m = st := by
  simp [addMsg, h]

theorem addMsg_messages_of_datetime (st : Store) (d : Int) (m : Msg)
    (h : hasKey m "datetime" = true) :
    (addMsg st d m).messages = putRow st.messages (mkRow d m) := by
  simp [addMsg, h]

/-- `add_msg` can only add or replace rows: any present primary key stays
present. -/
theorem addMsg_preserves_rowKey (st : Store) (d : Int) (m : Msg)
    (k : Int × Option Val) (h : (rowLookup st.messages k).isSome = true) :
    (rowLookup (addMsg st d m).messages k).isSome = true := by
  unfold addMsg
  by_cases hd : hasKey m "datetime"
  · simp only [hd, if_true]
    rw [rowLookup_putRow]
    by_cases hk : k = rowKey (mkRow d m) <;> simp [hk, h]
  · simp only [Bool.not_eq_true] at hd
    simp [hd, h]

/-- The merged result `check_changed` produces, in applied form. -/
theorem checkChanged_merged (km msg : Msg) (h : km.isEmpty = false) :
    (checkChanged (some km) msg).1 =
      if pyGet (mergeKnown km msg) "text" ≠ pyGet km "text" then
        appendPrev (mergeKnown km msg) km
      else mergeKnown km msg := by
  simp only [checkChanged, h, Bool.false_eq_true, if_false]

theorem appendPrev_hasKey (m km : Msg) (k : String)
    (h : hasKey m k = true) : hasKey (appendPrev m km) k = true := by
  by_cases hp : k = "prev"
  · subst hp
    unfold appendPrev hasKey
    cases hpl : lookupA m "prev" with
    | none => simp [hasKey, hpl] at h
    | some v =>
        cases v with
        | vlist l => rw [lookupA_setA]; simp
        | vnull => simp [hpl]
        | vint n => simp [hpl]
        | vstr s => simp [hpl]
        | vbool b => simp [hpl]
        | vtime t => simp [hpl]
  · unfold hasKey
    rw [appendPrev_lookup_ne m km k hp]
    exact h

theorem mergeKnown_hasKey (km msg : Msg) (k : String)
    (h : hasKey km k = true) : hasKey (mergeKnown km msg) k = true := by
  cases hm : lookupA msg k with
  | some v => simp [hasKey, mergeKnown_lookup_new km msg k v hm]
  | none =>
      unfold hasKey
      rw [mergeKnown_lookup_old km msg k hm]
      exact h

/-! ## Edit-history lemmas -/

/-- Processing the first observation of a text message caches it. -/
theorem step_first (hashFn : String → String) (fs : FS) (s : Saver)
    (d i : Int) (t : String) (hi : i ≠ 0) (ht : t ≠ "")
    (hkl : (knownLoad s d).2 = []) :
    ((processMessage hashFn fs s d (mkTextObs i t 0)).2.1.known
        = [(.vint i, histMsg i t none)]) ∧
    (processMessage hashFn fs s d (mkTextObs i t 0)).2.1.knownDialog = some d := by
  have hib : (i != 0) = true := by simp [hi]
  have htb : (t != "") = true := by simp [ht]
  constructor <;>
    simp [processMessage, assembleMsg, mkTextObs, buildMsg, dropFalsy,
      pyTruthy, histMsg, hkl, checkChanged, lookupA, setA,
      hib, htb]

/-- Processing a changed-text observation of a cached text message appends
the prior text to the history and caches the new text. -/
theorem step_edit (hashFn : String → String) (fs : FS) (s : Saver)
    (d i : Int) (t u : String) (P : Option (List (Option String)))
    (hi : i ≠ 0) (ht : t ≠ "") (htu : t ≠ u)
    (hkd : s.knownDialog = some d)
    (hkn : s.known = [(.vint i, histMsg i u P)]) :
    ((processMessage hashFn fs s d (mkTextObs i t 0)).2.1.known
        = [(.vint i, histMsg i t (some ((P.getD []) ++ [some u])))]) ∧
    (processMessage hashFn fs s d (mkTextObs i t 0)).2.1.knownDialog = some d := by
  have hvne : Val.vstr t ≠ Val.vstr u := by simp [htu]
  have hib : (i != 0) = true := by simp [hi]
  have htb : (t != "") = true := by simp [ht]
  cases P with
  | none =>
      constructor <;>
        simp [processMessage, assembleMsg, mkTextObs, buildMsg, dropFalsy,
          pyTruthy, knownLoad, hkd, hkn, checkChanged, mergeKnown, appendPrev,
          hasKey, pyGet, lookupA, setA, histMsg, List.filter, asTextEntry,
          hib, htb, hvne]
  | some l =>
      constructor <;>
        simp [processMessage, assembleMsg, mkTextObs, buildMsg, dropFalsy,
          pyTruthy, knownLoad, hkd, hkn, checkChanged, mergeKnown, appendPrev,
          hasKey, pyGet, lookupA, setA, histMsg, List.filter, asTextEntry,
          hib, htb, hvne]

/-- Invariant of the text-observation chain: starting from a cached record
with text `u` and history `P`, processing further pairwise-distinct non-empty
texts leaves the cache holding the last text, with every superseded text
appended to the history in order. -/
theorem foldTexts_inv (hashFn : String → String) (d i : Int) (hi : i ≠ 0)
    (ts : List String) :
    ∀ (u : String) (P : Option (List (Option String))) (fs : FS) (s : Saver),
      s.knownDialog = some d → s.known = [(.vint i, histMsg i u P)] →
      (∀ t ∈ ts, t ≠ "") → List.Chain' (· ≠ ·) (u :: ts) →
      (foldTexts hashFn d i (fs, s) ts).2.known =
        [(.vint i,
          histMsg i (ts.getLastD u)
            (match ts with
             | [] => P
             | _ :: _ =>
                 some ((P.getD []) ++ ((u :: ts).dropLast.map some))))] := by
  induction ts with
  | nil =>
      intro u P fs s hkd hkn _ _
      simpa [foldTexts] using hkn
  | cons t ts' ih =>
      intro u P fs s hkd hkn hne hchain
      obtain ⟨hut, hchain'⟩ := List.chain'_cons.mp hchain
      have ht : t ≠ "" := hne t (by simp)
      have hstep := step_edit hashFn fs s d i t u P hi ht (Ne.symm hut) hkd hkn
      have hfold : foldTexts hashFn d i (fs, s) (t :: ts') =
          foldTexts hashFn d i
            ((processMessage hashFn fs s d (mkTextObs i t 0)).1,
             (processMessage hashFn fs s d (mkTextObs i t 0)).2.1) ts' := by
        simp [foldTexts]
      rw [hfold]
      rw [ih t (some ((P.getD []) ++ [some u]))
        (processMessage hashFn fs s d (mkTextObs i t 0)).1
        (processMessage hashFn fs s d (mkTextObs i t 0)).2.1
        hstep.2 hstep.1 (fun x hx => hne x (by simp [hx])) hchain']
      cases ts' with
      | nil => simp
      | cons a b =>
          simp [List.dropLast, List.append_assoc]
          cases hb : (a :: b).getLast? with
          | none => rw [List.getLast?_eq_none_iff] at hb; cases hb
          | some x => simp

/-! ## Dialog-folder lemmas -/

/-- One `save_dialog` call, for whatever dialog and name, never changes the
folder of a dialog already in the store. -/
theorem saveDialog_folder (st : Store) (j : Int) (m : String) (i : Int)
    (f0 : String)
    (h : (lookupA st.dialogs i).map DialogRec.folder = some f0) :
    (lookupA (saveDialog st j m).dialogs i).map DialogRec.folder = some f0 := by
  unfold saveDialog
  cases hj : lookupA st.dialogs j with
  | none =>
      unfold addDialog
      simp only []
      rw [lookupA_setA]
      by_cases hij : i = j
      · subst hij; rw [hj] at h; simp at h
      · simp [hij, h]
  | some rec =>
      dsimp only
      by_cases hname : rec.name ≠ m
      · rw [if_pos hname]
        unfold addDialog
        simp only []
        rw [lookupA_setA]
        by_cases hij : i = j
        · subst hij
          rw [hj] at h
          simp at h
          simp [h]
        · simp [hij, h]
      · rw [if_neg hname]
        exact h

theorem foldSaves_folder (saves : List (Int × String)) :
    ∀ (st : Store) (i : Int) (f0 : String),
      (lookupA st.dialogs i).map DialogRec.folder = some f0 →
      (lookupA
          ((saves.foldl (fun acc pr => saveDialog acc pr.1 pr.2) st)).dialogs
          i).map DialogRec.folder = some f0 := by
  induction saves with
  | nil => intro st i f0 h; simpa using h
  | cons p rest ih =>
      intro st i f0 h
      simpa using ih (saveDialog st p.1 p.2) i f0 (saveDialog_folder st p.1 p.2 i f0 h)

/-! ## Commit-counting lemmas: nothing inside the scan commits -/

theorem knownLoad_store (s : Saver) (d : Int) :
    (knownLoad s d).1.store = s.store := by
  unfold knownLoad; split <;> rfl

theorem saveMedia_saver (hashFn : String → String) (fs : FS) (s : Saver)
    (d : Int) (o : Obs) (md : MediaDesc) :
    (saveMedia hashFn fs s d o md).2.1 = (knownLoad s d).1 := by
  unfold saveMedia
  dsimp only
  repeat' split
  all_goals rfl

theorem assembleMsg_store (hashFn : String → String) (fs : FS) (s : Saver)
    (d : Int) (o : Obs) :
    (assembleMsg hashFn fs s d o).2.1.store = s.store := by
  unfold assembleMsg
  cases o.media with
  | none => rfl
  | some md =>
      by_cases hd : md.dontSave
      · simp [hd]
      · simp [hd, saveMedia_saver, knownLoad_store]

theorem addMsg_commits (st : Store) (d : Int) (m : Msg) :
    (addMsg st d m).commits = st.commits := by
  unfold addMsg; split <;> rfl

theorem addMsg_dialogs (st : Store) (d : Int) (m : Msg) :
    (addMsg st d m).dialogs = st.dialogs := by
  unfold addMsg; split <;> rfl

theorem saveStore_messages (st : Store) :
    (saveStore st).messages = st.messages := by
  unfold saveStore; split <;> rfl

theorem processMessage_commits (hashFn : String → String) (fs : FS)
    (s : Saver) (d : Int) (o : Obs) :
    (processMessage hashFn fs s d o).2.1.store.commits = s.store.commits := by
  unfold processMessage
  simp only [addMsg_commits, knownLoad_store, assembleMsg_store]

theorem saveDialog_commits (st : Store) (i : Int) (n : String) :
    (saveDialog st i n).commits = st.commits := by
  unfold saveDialog
  split
  · split <;> rfl
  · rfl

theorem scanDialog_commits (hashFn : String → String) (d : Int)
    (msgs : List Obs) (p : RecentOnly) :
    ∀ (fs : FS) (s : Saver),
      (scanDialog hashFn fs s d msgs p).2.store.commits = s.store.commits := by
  induction msgs with
  | nil => intro fs s; rfl
  | cons o rest ih =>
      intro fs s
      unfold scanDialog
      dsimp only
      split
      · exact processMessage_commits hashFn fs s d o
      · rw [ih]
        exact processMessage_commits hashFn fs s d o

theorem scanAll_commits (hashFn : String → String)
    (dialogs : List DialogIn) (p : RecentOnly) :
    ∀ (fs : FS) (s : Saver),
      (scanAll hashFn fs s dialogs p).2.store.commits = s.store.commits := by
  induction dialogs with
  | nil => intro fs s; rfl
  | cons di rest ih =>
      intro fs s
      unfold scanAll
      rw [ih]
      rw [scanDialog_commits]
      exact saveDialog_commits s.store di.id di.name

/-! ## Persistence of processed messages -/

theorem lookupA_filter_cons_ne {α β : Type} [DecidableEq α] (k : α)
    (kv : α × β) (l : List (α × β)) (p : α × β → Bool) (hne : kv.1 ≠ k) :
    lookupA ((kv :: l).filter p) k = lookupA (l.filter p) k := by
  cases hp : p kv <;> simp [List.filter, hp, lookupA, hne]

/-- The assembled fixed-attribute dict always exposes the message id (when
non-zero) and the timestamp. -/
theorem buildMsg_lookup_id (o : Obs) (hid : o.id ≠ 0) :
    lookupA (buildMsg o) "id" = some (.vint o.id) := by
  have hib : (o.id != 0) = true := by simp [hid]
  simp [buildMsg, dropFalsy, pyTruthy, List.filter, hib, lookupA]

theorem buildMsg_lookup_datetime (o : Obs) :
    lookupA (buildMsg o) "datetime" = some (.vtime o.date) := by
  unfold buildMsg dropFalsy
  by_cases h1 : (o.id != 0) = true <;>
    by_cases h2 : (o.text != "") = true <;>
      (cases hs : o.sender with
       | none => simp [pyTruthy, List.filter, lookupA, h1, h2]
       | some n =>
           by_cases h3 : (n != 0) = true <;>
             simp [pyTruthy, List.filter, lookupA, h1, h2, h3])

/-- The metadata dict save_media returns holds only media attributes. -/
theorem saveMedia_meta_keys (hashFn : String → String) (fs : FS) (s : Saver)
    (d : Int) (o : Obs) (md : MediaDesc) (k : String)
    (h1 : k ≠ "hash") (h2 : k ≠ "size") (h3 : k ≠ "self_destructing")
    (h4 : k ≠ "media") :
    lookupA (saveMedia hashFn fs s d o md).2.2 k = none := by
  unfold saveMedia
  dsimp only
  repeat' split
  all_goals
    simp [lookupA, Ne.symm h1, Ne.symm h2, Ne.symm h3, Ne.symm h4]

/-- Outside the media attributes, the assembled message dict is
`buildMsg`. -/
theorem assembleMsg_lookup (hashFn : String → String) (fs : FS) (s : Saver)
    (d : Int) (o : Obs) (k : String)
    (h1 : k ≠ "hash") (h2 : k ≠ "size") (h3 : k ≠ "self_destructing")
    (h4 : k ≠ "media") :
    lookupA (assembleMsg hashFn fs s d o).2.2 k = lookupA (buildMsg o) k := by
  unfold assembleMsg
  cases o.media with
  | none => rfl
  | some md =>
      by_cases hd : md.dontSave
      · simp [hd]
      · simp only [hd, Bool.false_eq_true, if_false]
        rw [pyUpdate_lookup]
        rw [saveMedia_meta_keys hashFn fs s d o md k h1 h2 h3 h4]
        cases lookupA (buildMsg o) k <;> rfl

/-- The change detector keeps every attribute value of the new observation
other than the edit-history attribute. -/
theorem checkChanged_lookup_new (known : Option Msg) (msg : Msg) (k : String)
    (v : Val) (hk : k ≠ "prev") (hv : lookupA msg k = some v) :
    lookupA (checkChanged known msg).1 k = some v := by
  cases known with
  | none => simpa [checkChanged] using hv
  | some km =>
      by_cases he : km.isEmpty
      · simpa [checkChanged, he] using hv
      · rw [checkChanged_merged km msg (by simpa using he)]
        by_cases ht : pyGet (mergeKnown km msg) "text" ≠ pyGet km "text"
        · rw [if_pos ht, appendPrev_lookup_ne _ _ _ hk]
          exact mergeKnown_lookup_new km msg k v hv
        · rw [if_neg ht]
          exact mergeKnown_lookup_new km msg k v hv

/-- Processing a message with a non-zero id always leaves a row for it in
the store, keyed by the dialog and the id. -/
theorem processMessage_writes_row (hashFn : String → String) (fs : FS)
    (s : Saver) (d : Int) (o : Obs) (hid : o.id ≠ 0) :
    (rowLookup (processMessage hashFn fs s d o).2.1.store.messages
      (d, some (.vint o.id))).isSome = true := by
  have hA_id : lookupA (assembleMsg hashFn fs s d o).2.2 "id" =
      some (.vint o.id) := by
    rw [assembleMsg_lookup hashFn fs s d o "id" (by decide) (by decide)
      (by decide) (by decide)]
    exact buildMsg_lookup_id o hid
  have hA_dt : lookupA (assembleMsg hashFn fs s d o).2.2 "datetime" =
      some (.vtime o.date) := by
    rw [assembleMsg_lookup hashFn fs s d o "datetime" (by decide) (by decide)
      (by decide) (by decide)]
    exact buildMsg_lookup_datetime o
  have hcc_id :
      lookupA (checkChanged
        (lookupA (knownLoad (assembleMsg hashFn fs s d o).2.1 d).2
          (.vint o.id)) (assembleMsg hashFn fs s d o).2.2).1 "id" =
        some (.vint o.id) :=
    checkChanged_lookup_new _ _ "id" _ (by decide) hA_id
  have hcc_dt :
      lookupA (checkChanged
        (lookupA (knownLoad (assembleMsg hashFn fs s d o).2.1 d).2
          (.vint o.id)) (assembleMsg hashFn fs s d o).2.2).1 "datetime" =
        some (.vtime o.date) :=
    checkChanged_lookup_new _ _ "datetime" _ (by decide) hA_dt
  unfold processMessage
  dsimp only
  rw [addMsg_messages_of_datetime _ _ _ (by simp [hasKey, hcc_dt])]
  rw [rowLookup_putRow, mkRow_key, hcc_id]
  simp

/-! ## Read-back lemmas (get_msg, known_message) -/

theorem parseField_lookup_ne (m : Msg) (f k : String) (h : k ≠ f) :
    lookupA (parseField m f) k = lookupA m k := by
  unfold parseField
  cases hf : lookupA m f with
  | none => rfl
  | some v =>
      cases v <;> dsimp only <;> try rfl
      case vstr s =>
        cases parseTime s with
        | none => rfl
        | some w => rw [lookupA_setA]; simp [h]

theorem parseTimesRead_lookup_ne (m : Msg) (k : String)
    (h1 : k ≠ "datetime") (h2 : k ≠ "edit_date") (h3 : k ≠ "read_time") :
    lookupA (parseTimesRead m) k = lookupA m k := by
  show lookupA (parseField (parseField (parseField m "datetime") "edit_date")
    "read_time") k = lookupA m k
  rw [parseField_lookup_ne _ _ _ h3, parseField_lookup_ne _ _ _ h2,
    parseField_lookup_ne _ _ _ h1]

theorem lookupA_dropFalsy_of_truthy (m : Msg) (k : String) (v : Val)
    (h : lookupA m k = some v) (ht : pyTruthy v = true) :
    lookupA (dropFalsy m) k = some v := by
  induction m with
  | nil => simp [lookupA] at h
  | cons kv rest ih =>
      by_cases hk : kv.1 = k
      · rw [lookupA, if_pos hk] at h
        injection h with h
        subst h
        simp [dropFalsy, List.filter, ht, lookupA, hk]
      · rw [lookupA, if_neg hk] at h
        have hrest := ih h
        unfold dropFalsy at hrest ⊢
        cases hkv : pyTruthy kv.2 <;>
          simp [List.filter, hkv, lookupA, hk, hrest]

/-- The `dialog` attribute `get_msg` adds when the query selected the dialog
column. -/
theorem getMsg_lookup_dialog (r : Row) (hd : r.dialog ≠ 0) :
    lookupA (getMsg r true) "dialog" = some (.vint r.dialog) := by
  unfold getMsg
  dsimp only
  rw [if_pos rfl]
  apply lookupA_dropFalsy_of_truthy
  · rw [parseTimesRead_lookup_ne _ _ (by decide) (by decide) (by decide)]
    rw [lookupA_setA]
    simp
  · simp [pyTruthy, hd]

theorem getMsg_lookup_id (r : Row) (w : Bool) (mid : Int)
    (hr : r.id = some (.vint mid)) (hmid : mid ≠ 0) :
    lookupA (getMsg r w) "id" = some (.vint mid) := by
  unfold getMsg
  dsimp only
  cases w with
  | false =>
      rw [if_neg (by decide)]
      apply lookupA_dropFalsy_of_truthy
      · rw [parseTimesRead_lookup_ne _ _ (by decide) (by decide) (by decide)]
        simp [lookupA, hr]
      · simp [pyTruthy, hmid]
  | true =>
      rw [if_pos rfl]
      apply lookupA_dropFalsy_of_truthy
      · rw [parseTimesRead_lookup_ne _ _ (by decide) (by decide) (by decide)]
        rw [lookupA_setA]
        simp [lookupA, hr]
      · simp [pyTruthy, hmid]

/-- The parsed timestamp attribute of a read-back row. -/
theorem getMsg_lookup_datetime (r : Row) (w : Bool) (s : String) (n : Nat)
    (hr : r.datetime = some (.vstr s)) (hs : parseTime s = some (.vtime n)) :
    lookupA (getMsg r w) "datetime" = some (.vtime n) := by
  unfold getMsg
  dsimp only
  have hbase : lookupA
      ([("id", r.id.getD .vnull), ("datetime", r.datetime.getD .vnull),
        ("text", r.text.getD .vnull), ("sender", r.sender.getD .vnull),
        ("media", r.media.getD .vnull)] ++ r.extra) "datetime" =
      some (.vstr s) := by
    simp [lookupA, hr]
  cases w with
  | false =>
      rw [if_neg (by decide)]
      apply lookupA_dropFalsy_of_truthy
      · show lookupA (parseField (parseField (parseField _ "datetime")
          "edit_date") "read_time") "datetime" = _
        rw [parseField_lookup_ne _ _ _ (by decide),
          parseField_lookup_ne _ _ _ (by decide)]
        unfold parseField
        rw [hbase]
        simp [hs, lookupA_setA]
      · simp [pyTruthy]
  | true =>
      rw [if_pos rfl]
      apply lookupA_dropFalsy_of_truthy
      · show lookupA (parseField (parseField (parseField _ "datetime")
          "edit_date") "read_time") "datetime" = _
        rw [parseField_lookup_ne _ _ _ (by decide),
          parseField_lookup_ne _ _ _ (by decide)]
        unfold parseField
        rw [lookupA_setA]
        rw [if_neg (by decide : ¬("datetime" = "dialog"))]
        rw [hbase]
        simp [hs, lookupA_setA]
      · simp [pyTruthy]

/-- A value looked up in the falsy-filtered dict is truthy. -/
theorem lookupA_dropFalsy_truthy (m : Msg) (k : String) (v : Val)
    (h : lookupA (dropFalsy m) k = some v) : pyTruthy v = true := by
  induction m with
  | nil => simp [dropFalsy, lookupA] at h
  | cons kv rest ih =>
      unfold dropFalsy at h ih
      cases hkv : pyTruthy kv.2 with
      | false => rw [List.filter_cons_of_neg (by simp [hkv])] at h; exact ih h
      | true =>
          rw [List.filter_cons_of_pos (by simp [hkv])] at h
          rw [lookupA] at h
          by_cases hk : kv.1 = k

          · rw [if_pos hk] at h
            injection h with h
            rw [← h]
            exact hkv
          · rw [if_neg hk] at h
            exact ih h

theorem lookupA_dropFalsy_none (m : Msg) (k : String)
    (h : lookupA m k = none) : lookupA (dropFalsy m) k = none := by
  induction m with
  | nil => rfl
  | cons kv rest ih =>
      rw [lookupA] at h
      by_cases hk : kv.1 = k
      · rw [if_pos hk] at h; cases h
      · rw [if_neg hk] at h
        unfold dropFalsy at ih ⊢
        cases hkv : pyTruthy kv.2 with
        | false => rw [List.filter_cons_of_neg (by simp [hkv])]; exact ih h
        | true =>
            rw [List.filter_cons_of_pos (by simp [hkv])]
            rw [lookupA, if_neg hk]
            exact ih h

theorem parseField_self_none (m : Msg) (f : String)
    (h : lookupA m f = none) : parseField m f = m := by
  unfold parseField
  rw [h]

theorem parseField_lookup_none (m : Msg) (f k : String)
    (h : lookupA m k = none) : lookupA (parseField m f) k = none := by
  by_cases hf : k = f
  · subst hf
    rw [parseField_self_none m k h]
    exact h
  · rw [parseField_lookup_ne m f k hf]
    exact h

/-- Lookup through the whole read-back pipeline for an attribute that is not
a datetime field: the raw merged value survives when truthy. -/
theorem getMsg_lookup_plain (r : Row) (k : String) (v : Val)
    (h1 : k ≠ "datetime") (h2 : k ≠ "edit_date") (h3 : k ≠ "read_time")
    (hv : lookupA
        ([("id", r.id.getD .vnull), ("datetime", r.datetime.getD .vnull),
          ("text", r.text.getD .vnull), ("sender", r.sender.getD .vnull),
          ("media", r.media.getD .vnull)] ++ r.extra) k = some v)
    (ht : pyTruthy v = true) :
    lookupA (getMsg r false) k = some v := by
  unfold getMsg
  dsimp only
  rw [if_neg (by decide)]
  apply lookupA_dropFalsy_of_truthy _ _ _ _ ht
  rw [parseTimesRead_lookup_ne _ _ h1 h2 h3]
  exact hv

/-- The dict comprehension over rows that all share one id key: the last row
wins. -/
theorem buildDict_all_same_key (w : Bool) (key : Val) :
    ∀ (rows : List Row) (acc : List (Val × Msg)),
      (∀ r ∈ rows, r.id.getD .vnull = key) →
      lookupA
          (rows.foldl (fun a r => setA a (r.id.getD .vnull) (getMsg r w)) acc)
          key =
        match rows.getLast? with
        | some r => some (getMsg r w)
        | none => lookupA acc key := by
  intro rows
  induction rows with
  | nil => intro acc _; rfl
  | cons r rest ih =>
      intro acc hall
      have hr : r.id.getD .vnull = key := hall r (by simp)
      rw [List.foldl_cons,
        ih (setA acc (r.id.getD .vnull) (getMsg r w))
          (fun x hx => hall x (by simp [hx]))]
      cases hl : rest.getLast? with
      | some r' =>
          cases rest with
          | nil => simp at hl
          | cons a b => rw [List.getLast?_cons_cons, hl]
      | none =>
          have : rest = [] := by rwa [List.getLast?_eq_none_iff] at hl
          subst this
          rw [hr]
          simp [lookupA_setA]

/-! ## Media dedup lemmas -/

theorem storePath_inj (a b : String) (h : ("store/" ++ a) = ("store/" ++ b)) :
    a = b := by
  have hd := congrArg String.data h
  rw [String.data_append, String.data_append] at hd
  exact String.ext (List.append_cancel_left hd)

/-- Processing a fresh media message against an empty message table:
the bytes are downloaded, hashed, and materialized under the dialog folder's
candidate path; the stored row records hash, size, and the media path. -/
theorem processMessage_first_media (hashFn : String → String)
    (ds : List (Int × DialogRec)) (bc : Bool) (cn : Nat) (d1 i1 : Int)
    (t1 : Nat) (n1 c1 : String) (rec1 : DialogRec)
    (hd1 : lookupA ds d1 = some rec1) (hi1 : i1 ≠ 0)
    (hp1 : pathJoin rec1.folder n1 ≠ "") :
    processMessage hashFn []
        (mkSaver { messages := [], dialogs := ds, changed := bc,
                   commits := cn })
        d1 (mkMediaObs i1 t1 n1 c1) =
      ([("store/" ++ pathJoin rec1.folder n1, c1)],
       { store :=
           { messages :=
               [{ dialog := d1, id := some (.vint i1),
                  datetime := some (.vstr (timeStr t1)), text := none,
                  sender := none,
                  media := some (.vstr (pathJoin rec1.folder n1)),
                  extra := [("hash", .vstr (hashFn c1)),
                            ("size", .vint (c1.length : Int))] }],
             dialogs := ds, changed := true, commits := cn },
         knownDialog := some d1,
         known := [(.vint i1,
           [("id", .vint i1), ("datetime", .vtime t1),
            ("hash", .vstr (hashFn c1)), ("size", .vint (c1.length : Int)),
            ("media", .vstr (pathJoin rec1.folder n1))])],
         changed := true },
       false) := by
  have hib : (i1 != 0) = true := by simp [hi1]
  have hpb : (pathJoin rec1.folder n1 != "") = true := by simp [hp1]
  simp [processMessage, assembleMsg, saveMedia, knownLoad, mkSaver,
    knownMessages, buildDictV, mkMediaObs, buildMsg, dropFalsy, pyTruthy,
    hib, hpb, lookupA, hd1, valStr, optValStr, fsHas, hasKey, fsWrite, setA,
    knownMediaHash, pyUpdate, checkChanged, addMsg, mkRow, serializeTimes,
    DATETIME_FIELDS, serializeField, timeStr, DB_FIELDS, putRow, List.filter]

/-! ## Claims -/

/-- C5: two messages (possibly in different dialogs) whose media content
hashes to the same value, processed against a store with an empty message
table and a filesystem holding neither candidate path, yield exactly one
physical file — the first message's materialized path — and both stored
rows reference that same relative path in their media attribute. Covers
both dedup routes: same candidate path (the on-disk file check) and
different candidate paths (the store-wide hash index `known_media_hash`). -/
theorem c5_media_dedup (hashFn : String → String)
    (ds : List (Int × DialogRec)) (bc : Bool) (cn : Nat)
    (d1 d2 i1 i2 : Int) (t1 t2 : Nat) (n1 n2 c1 c2 : String)
    (rec1 rec2 : DialogRec)
    (hd1 : lookupA ds d1 = some rec1) (hd2 : lookupA ds d2 = some rec2)
    (hi1 : i1 ≠ 0) (hi2 : i2 ≠ 0) (hi12 : i1 ≠ i2)
    (hp1 : pathJoin rec1.folder n1 ≠ "") (hp2 : pathJoin rec2.folder n2 ≠ "")
    (hh : hashFn c2 = hashFn c1) :
    (processMessage hashFn
        (processMessage hashFn []
          (mkSaver { messages := [], dialogs := ds, changed := bc,
                     commits := cn }) d1 (mkMediaObs i1 t1 n1 c1)).1
        (processMessage hashFn []
          (mkSaver { messages := [], dialogs := ds, changed := bc,
                     commits := cn }) d1 (mkMediaObs i1 t1 n1 c1)).2.1
        d2 (mkMediaObs i2 t2 n2 c2)).1 =
      [("store/" ++ pathJoin rec1.folder n1, c1)] ∧
    ((rowLookup
        (processMessage hashFn
          (processMessage hashFn []
            (mkSaver { messages := [], dialogs := ds, changed := bc,
                       commits := cn }) d1 (mkMediaObs i1 t1 n1 c1)).1
          (processMessage hashFn []
            (mkSaver { messages := [], dialogs := ds, changed := bc,
                       commits := cn }) d1 (mkMediaObs i1 t1 n1 c1)).2.1
          d2 (mkMediaObs i2 t2 n2 c2)).2.1.store.messages
        (d1, some (.vint i1))).bind Row.media) =
      some (.vstr (pathJoin rec1.folder n1)) ∧
    ((rowLookup
        (processMessage hashFn
          (processMessage hashFn []
            (mkSaver { messages := [], dialogs := ds, changed := bc,
                       commits := cn }) d1 (mkMediaObs i1 t1 n1 c1)).1
          (processMessage hashFn []
            (mkSaver { messages := [], dialogs := ds, changed := bc,
                       commits := cn }) d1 (mkMediaObs i1 t1 n1 c1)).2.1
          d2 (mkMediaObs i2 t2 n2 c2)).2.1.store.messages
        (d2, some (.vint i2))).bind Row.media) =
      some (.vstr (pathJoin rec1.folder n1)) := by
  rw [processMessage_first_media hashFn ds bc cn d1 i1 t1 n1 c1 rec1 hd1 hi1
    hp1]
  have hib2 : (i2 != 0) = true := by simp [hi2]
  by_cases hd : d2 = d1
  · subst hd
    rw [hd1] at hd2
    injection hd2 with hd2
    subst hd2
    have hpb2 : (pathJoin rec1.folder n2 != "") = true := by simp [hp2]
    by_cases hp : pathJoin rec1.folder n2 = pathJoin rec1.folder n1
    · refine ⟨?_, ?_, ?_⟩ <;>
        simp [processMessage, assembleMsg, saveMedia, knownLoad,
          mkMediaObs, buildMsg, dropFalsy, pyTruthy, hib2, hpb2, lookupA,
          hd1, valStr, optValStr, fsHas, hasKey, fsWrite, setA, knownMediaHash,
          pyUpdate, checkChanged, addMsg, mkRow, serializeTimes,
          DATETIME_FIELDS, serializeField, timeStr, DB_FIELDS, putRow,
          List.filter, rowLookup, List.find?, rowKey, hp, hh, hi12,
          Ne.symm hi12]
    · have hsp : ¬("store/" ++ pathJoin rec1.folder n1 =
          "store/" ++ pathJoin rec1.folder n2) :=
        fun e => hp (storePath_inj _ _ e).symm
      refine ⟨?_, ?_, ?_⟩ <;>
        simp [processMessage, assembleMsg, saveMedia, knownLoad,
          mkMediaObs, buildMsg, dropFalsy, pyTruthy, hib2, hpb2, lookupA,
          hd1, valStr, optValStr, fsHas, hasKey, fsWrite, setA, knownMediaHash,
          pyUpdate, checkChanged, addMsg, mkRow, serializeTimes,
          DATETIME_FIELDS, serializeField, timeStr, DB_FIELDS, putRow,
          List.filter, rowLookup, List.find?, rowKey, hsp, hh, hi12,
          Ne.symm hi12]
  · have hpb2 : (pathJoin rec2.folder n2 != "") = true := by simp [hp2]
    have hdb : (d1 == d2) = false := beq_eq_false_iff_ne.mpr (Ne.symm hd)
    have hdb2 : (d2 == d1) = false := beq_eq_false_iff_ne.mpr hd
    by_cases hp : pathJoin rec2.folder n2 = pathJoin rec1.folder n1
    · refine ⟨?_, ?_, ?_⟩ <;>
        simp [processMessage, assembleMsg, saveMedia, knownLoad,
          knownMessages, buildDictV, mkMediaObs, buildMsg, dropFalsy,
          pyTruthy, hib2, hpb2, lookupA, hd1, hd2, valStr, optValStr, fsHas, hasKey,
          fsWrite, setA, knownMediaHash, pyUpdate, checkChanged, addMsg,
          mkRow, serializeTimes, DATETIME_FIELDS, serializeField,
          DB_FIELDS, putRow, List.filter, rowLookup, List.find?, rowKey,
          hp, hh, hd, Ne.symm hd, hdb, hdb2]
    · have hsp : ¬("store/" ++ pathJoin rec1.folder n1 =
          "store/" ++ pathJoin rec2.folder n2) :=
        fun e => hp (storePath_inj _ _ e).symm
      refine ⟨?_, ?_, ?_⟩ <;>
        simp [processMessage, assembleMsg, saveMedia, knownLoad,
          knownMessages, buildDictV, mkMediaObs, buildMsg, dropFalsy,
          pyTruthy, hib2, hpb2, lookupA, hd1, hd2, valStr, optValStr, fsHas, hasKey,
          fsWrite, setA, knownMediaHash, pyUpdate, checkChanged, addMsg,
          mkRow, serializeTimes, DATETIME_FIELDS, serializeField,
          DB_FIELDS, putRow, List.filter, rowLookup, List.find?, rowKey,
          hsp, hh, hd, Ne.symm hd, hdb, hdb2]

theorem c5_media_dedup_witness :
    (processMessage (fun _ => "H")
        (processMessage (fun _ => "H") []
          (mkSaver { messages := [],
                     dialogs := [(1, ⟨"A", "a"⟩), (2, ⟨"B", "b"⟩)],
                     changed := false, commits := 0 })
          1 (mkMediaObs 10 3 "x.jpg" "AA")).1
        (processMessage (fun _ => "H") []
          (mkSaver { messages := [],
                     dialogs := [(1, ⟨"A", "a"⟩), (2, ⟨"B", "b"⟩)],
                     changed := false, commits := 0 })
          1 (mkMediaObs 10 3 "x.jpg" "AA")).2.1
        2 (mkMediaObs 20 4 "y.jpg" "BBB")).1 =
      [("store/" ++ pathJoin "a" "x.jpg", "AA")] ∧
    ((rowLookup
        (processMessage (fun _ => "H")
          (processMessage (fun _ => "H") []
            (mkSaver { messages := [],
                       dialogs := [(1, ⟨"A", "a"⟩), (2, ⟨"B", "b"⟩)],
                       changed := false, commits := 0 })
            1 (mkMediaObs 10 3 "x.jpg" "AA")).1
          (processMessage (fun _ => "H") []
            (mkSaver { messages := [],
                       dialogs := [(1, ⟨"A", "a"⟩), (2, ⟨"B", "b"⟩)],
                       changed := false, commits := 0 })
            1 (mkMediaObs 10 3 "x.jpg" "AA")).2.1
          2 (mkMediaObs 20 4 "y.jpg" "BBB")).2.1.store.messages
        (1, some (.vint 10))).bind Row.media) =
      some (.vstr (pathJoin "a" "x.jpg")) ∧
    ((rowLookup
        (processMessage (fun _ => "H")
          (processMessage (fun _ => "H") []
            (mkSaver { messages := [],
                       dialogs := [(1, ⟨"A", "a"⟩), (2, ⟨"B", "b"⟩)],
                       changed := false, commits := 0 })
            1 (mkMediaObs 10 3 "x.jpg" "AA")).1
          (processMessage (fun _ => "H") []
            (mkSaver { messages := [],
                       dialogs := [(1, ⟨"A", "a"⟩), (2, ⟨"B", "b"⟩)],
                       changed := false, commits := 0 })
            1 (mkMediaObs 10 3 "x.jpg" "AA")).2.1
          2 (mkMediaObs 20 4 "y.jpg" "BBB")).2.1.store.messages
        (2, some (.vint 20))).bind Row.media) =
      some (.vstr (pathJoin "a" "x.jpg")) := by
  have h := c5_media_dedup (fun _ => "H")
    [(1, ⟨"A", "a"⟩), (2, ⟨"B", "b"⟩)] false 0 1 2 10 20 3 4
    "x.jpg" "y.jpg" "AA" "BBB" ⟨"A", "a"⟩ ⟨"B", "b"⟩
    (by decide) (by decide) (by decide) (by decide) (by decide)
    (by decide) (by decide) (by decide)
  exact h

/-- C8: `get_msg` (the per-row reader of get_messages_from_cursor backing
known_messages / listMessages) returns the attributes merged from the fixed
columns and the serialized side-map, with every falsy value omitted: any
attribute in the result is truthy (first conjunct); each truthy fixed column
is returned under its name (id/text/sender/media verbatim, datetime parsed
back from its stored string); each truthy side-map attribute is returned
verbatim; and no attribute appears that is neither a fixed column nor in the
side-map. The side-map of a stored row never overlaps the fixed columns (in
Python an overlap would raise at `dict(**extra)`). -/
theorem c8_get_msg_merges_and_omits_falsy (r : Row)
    (hdisj : ∀ kv ∈ r.extra, kv.1 ∉ DB_FIELDS) :
    (∀ k v, lookupA (getMsg r false) k = some v → pyTruthy v = true) ∧
    (∀ v, r.id = some v → pyTruthy v = true →
      lookupA (getMsg r false) "id" = some v) ∧
    (∀ v, r.text = some v → pyTruthy v = true →
      lookupA (getMsg r false) "text" = some v) ∧
    (∀ v, r.sender = some v → pyTruthy v = true →
      lookupA (getMsg r false) "sender" = some v) ∧
    (∀ v, r.media = some v → pyTruthy v = true →
      lookupA (getMsg r false) "media" = some v) ∧
    (∀ s n, r.datetime = some (.vstr s) → parseTime s = some (.vtime n) →
      lookupA (getMsg r false) "datetime" = some (.vtime n)) ∧
    (∀ k v, k ∉ DB_FIELDS → k ≠ "edit_date" → k ≠ "read_time" →
      lookupA r.extra k = some v → pyTruthy v = true →
      lookupA (getMsg r false) k = some v) ∧
    (∀ k, k ∉ DB_FIELDS → hasKey r.extra k = false →
      lookupA (getMsg r false) k = none) := by
  refine ⟨?_, ?_, ?_, ?_, ?_, ?_, ?_, ?_⟩
  · intro k v h
    unfold getMsg at h
    dsimp only at h
    rw [if_neg (by decide)] at h
    exact lookupA_dropFalsy_truthy _ _ _ h
  · intro v hv ht
    apply getMsg_lookup_plain r "id" v (by decide) (by decide) (by decide)
      _ ht
    simp [lookupA, hv]
  · intro v hv ht
    apply getMsg_lookup_plain r "text" v (by decide) (by decide) (by decide)
      _ ht
    simp [lookupA, hv]
  · intro v hv ht
    apply getMsg_lookup_plain r "sender" v (by decide) (by decide) (by decide)
      _ ht
    simp [lookupA, hv]
  · intro v hv ht
    apply getMsg_lookup_plain r "media" v (by decide) (by decide) (by decide)
      _ ht
    simp [lookupA, hv]
  · intro s n hv ht
    exact getMsg_lookup_datetime r false s n hv ht
  · intro k v hk h2 h3 hv ht
    simp only [DB_FIELDS, List.mem_cons, List.mem_singleton, not_or] at hk
    obtain ⟨hk1, hk2, hk3, hk4, hk5, -⟩ := hk
    apply getMsg_lookup_plain r k v hk2 h2 h3 _ ht
    rw [lookupA_append_none]
    · exact hv
    · simp [lookupA, Ne.symm hk1, Ne.symm hk2, Ne.symm hk3, Ne.symm hk4,
        Ne.symm hk5]
  · intro k hk hnk
    simp only [DB_FIELDS, List.mem_cons, List.mem_singleton, not_or] at hk
    obtain ⟨hk1, hk2, hk3, hk4, hk5, -⟩ := hk
    unfold getMsg
    dsimp only
    rw [if_neg (by decide)]
    apply lookupA_dropFalsy_none
    have hbase : lookupA
        ([("id", r.id.getD .vnull), ("datetime", r.datetime.getD .vnull),
          ("text", r.text.getD .vnull), ("sender", r.sender.getD .vnull),
          ("media", r.media.getD .vnull)] ++ r.extra) k = none := by
      rw [lookupA_append_none]
      · unfold hasKey at hnk
        cases hx : lookupA r.extra k with
        | none => rfl
        | some v => rw [hx] at hnk; simp at hnk
      · simp [lookupA, Ne.symm hk1, Ne.symm hk2, Ne.symm hk3, Ne.symm hk4,
          Ne.symm hk5]
    show lookupA (parseField (parseField (parseField _ "datetime")
      "edit_date") "read_time") k = none
    apply parseField_lookup_none
    apply parseField_lookup_none
    apply parseField_lookup_none
    exact hbase

theorem c8_get_msg_merges_and_omits_falsy_witness :
    lookupA
        (getMsg
          { dialog := 3, id := some (Val.vint 5),
            datetime := some (Val.vstr "99"), text := some (Val.vstr "hi"),
            sender := some (Val.vint 2), media := some (Val.vstr "a/b.jpg"),
            extra := [("hash", Val.vstr "h"), ("size", Val.vint 7)] } false)
        "text" = some (Val.vstr "hi") ∧
    lookupA
        (getMsg
          { dialog := 3, id := some (Val.vint 5),
            datetime := some (Val.vstr "99"), text := some (Val.vstr "hi"),
            sender := some (Val.vint 2), media := some (Val.vstr "a/b.jpg"),
            extra := [("hash", Val.vstr "h"), ("size", Val.vint 7)] } false)
        "datetime" = some (Val.vtime 99) ∧
    lookupA
        (getMsg
          { dialog := 3, id := some (Val.vint 5),
            datetime := some (Val.vstr "99"), text := some (Val.vstr "hi"),
            sender := some (Val.vint 2), media := some (Val.vstr "a/b.jpg"),
            extra := [("hash", Val.vstr "h"), ("size", Val.vint 7)] } false)
        "hash" = some (Val.vstr "h") ∧
    lookupA
        (getMsg
          { dialog := 3, id := some (Val.vint 5),
            datetime := some (Val.vstr "99"), text := some (Val.vstr "hi"),
            sender := some (Val.vint 2), media := some (Val.vstr "a/b.jpg"),
            extra := [("hash", Val.vstr "h"), ("size", Val.vint 7)] } false)
        "ttl" = none ∧
    pyTruthy (Val.vstr "hi") = true := by
  have h := c8_get_msg_merges_and_omits_falsy
    { dialog := 3, id := some (Val.vint 5),
      datetime := some (Val.vstr "99"), text := some (Val.vstr "hi"),
      sender := some (Val.vint 2), media := some (Val.vstr "a/b.jpg"),
      extra := [("hash", Val.vstr "h"), ("size", Val.vint 7)] }
    (by decide)
  refine ⟨h.2.2.1 (Val.vstr "hi") (by decide) (by decide),
    h.2.2.2.2.2.1 "99" 99 (by decide) (by decide),
    h.2.2.2.2.2.2.1 "hash" (Val.vstr "h") (by decide) (by decide) (by decide)
      (by decide) (by decide),
    h.2.2.2.2.2.2.2 "ttl" (by decide) (by decide),
    h.1 "text" (Val.vstr "hi")
      (h.2.2.1 (Val.vstr "hi") (by decide) (by decide))⟩

/-- C10: `known_message` queries by message id alone (`where id=?`), not by
the `(dialog, id)` primary key. When the same id exists in several dialogs,
the result dict keeps only the last matching row in query order, so
`known_message` returns exactly that one (first conjunct); consequently an
attribute update addressed by message id (`set_message_attributes`, as used
for read markers and deletions) is written to that row's dialog only: any
other colliding row is still looked up unchanged, while the last row's
(dialog, id) slot receives the update (remaining conjuncts). -/
theorem c10_known_message_last_row (st : Store) (mid : Int) (r1 r2 : Row)
    (attrs : Msg) (commit : Bool) (s : String) (n : Nat)
    (hr1 : r1 ∈ st.messages.filter (fun r => r.id == some (.vint mid)))
    (hlast : (st.messages.filter
        (fun r => r.id == some (.vint mid))).getLast? = some r2)
    (hd12 : r1.dialog ≠ r2.dialog)
    (hmid : mid ≠ 0) (hr2d : r2.dialog ≠ 0)
    (hdt : r2.datetime = some (.vstr s)) (hs : parseTime s = some (.vtime n))
    (hattrs : hasKey attrs "id" = false) :
    knownMessage st mid = some (getMsg r2 true) ∧
    rowLookup (setMessageAttributes (mkSaver st) mid attrs
        commit).store.messages (r1.dialog, some (.vint mid)) =
      rowLookup st.messages (r1.dialog, some (.vint mid)) ∧
    (rowLookup (setMessageAttributes (mkSaver st) mid attrs
        commit).store.messages (r2.dialog, some (.vint mid))).isSome =
      true := by
  have hall : ∀ r ∈ st.messages.filter (fun r => r.id == some (.vint mid)),
      r.id.getD .vnull = .vint mid := by
    intro r hr
    have := (List.mem_filter.mp hr).2
    rw [beq_iff_eq] at this
    rw [this]
    rfl
  have hknown : knownMessage st mid = some (getMsg r2 true) := by
    unfold knownMessage buildDictV
    dsimp only
    have hfold := buildDict_all_same_key true (.vint mid)
      (st.messages.filter (fun r => r.id == some (.vint mid))) [] hall
    rw [hlast] at hfold
    have hne :
        ((st.messages.filter
            (fun r => r.id == some (.vint mid))).foldl
          (fun a r => setA a (r.id.getD .vnull) (getMsg r true)) []).isEmpty
          = false := by
      cases hrec : (st.messages.filter
          (fun r => r.id == some (.vint mid))).foldl
        (fun a r => setA a (r.id.getD .vnull) (getMsg r true)) [] with
      | nil => rw [hrec] at hfold; simp [lookupA] at hfold
      | cons x xs => rfl
    rw [hne]
    simpa using hfold
  -- r2's id column
  have hr2mem : r2 ∈ st.messages.filter (fun r => r.id == some (.vint mid)) := by
    obtain ⟨hne, heq⟩ := List.mem_getLast?_eq_getLast
      (show r2 ∈ (st.messages.filter
        (fun r => r.id == some (.vint mid))).getLast? from hlast)
    rw [heq]
    exact List.getLast_mem hne
  have hr2id : r2.id = some (.vint mid) := by
    have := (List.mem_filter.mp hr2mem).2
    rwa [beq_iff_eq] at this
  -- the merged update message and its key attributes
  have hkm_dialog : lookupA (getMsg r2 true) "dialog" =
      some (.vint r2.dialog) := getMsg_lookup_dialog r2 hr2d
  have hkm_id : lookupA (getMsg r2 true) "id" = some (.vint mid) :=
    getMsg_lookup_id r2 true mid hr2id hmid
  have hkm_dt : lookupA (getMsg r2 true) "datetime" = some (.vtime n) :=
    getMsg_lookup_datetime r2 true s n hdt hs
  have hpop_id : lookupA (popKey (getMsg r2 true) "dialog") "id" =
      some (.vint mid) := by
    unfold popKey
    rw [lookupA_filter_key _ (fun x => x ≠ "dialog")]
    simp [hkm_id]
  have hpop_dt : lookupA (popKey (getMsg r2 true) "dialog") "datetime" =
      some (.vtime n) := by
    unfold popKey
    rw [lookupA_filter_key _ (fun x => x ≠ "dialog")]
    simp [hkm_dt]
  have hmsg_id : lookupA (pyUpdate (popKey (getMsg r2 true) "dialog") attrs)
      "id" = some (.vint mid) := by
    rw [pyUpdate_lookup, hpop_id]
    unfold hasKey at hattrs
    cases hb : lookupA attrs "id" with
    | none => rfl
    | some v => rw [hb] at hattrs; simp at hattrs
  have hmsg_dt : hasKey (pyUpdate (popKey (getMsg r2 true) "dialog") attrs)
      "datetime" = true := by
    unfold hasKey
    rw [pyUpdate_lookup, hpop_dt]
    cases lookupA attrs "datetime" <;> rfl
  -- the update call resolves to an upsert into r2's dialog
  have hst : (setMessageAttributes (mkSaver st) mid attrs commit).store.messages
      = putRow st.messages
          (mkRow r2.dialog
            (pyUpdate (popKey (getMsg r2 true) "dialog") attrs)) := by
    unfold setMessageAttributes
    dsimp only [mkSaver]
    rw [hknown]
    dsimp only
    rw [hkm_dialog]
    dsimp only
    rw [if_neg hr2d]
    dsimp only
    have hstore : (knownLoad
        { store := st, knownDialog := none, known := [], changed := false }
        r2.dialog).1.store = st := by
      rw [knownLoad_store]
    rw [hstore]
    cases commit with
    | false =>
        rw [if_neg (by decide)]
        exact addMsg_messages_of_datetime st r2.dialog _ hmsg_dt
    | true =>
        rw [if_pos rfl, saveStore_messages]
        exact addMsg_messages_of_datetime st r2.dialog _ hmsg_dt
  have hkey : rowKey (mkRow r2.dialog
      (pyUpdate (popKey (getMsg r2 true) "dialog") attrs)) =
      (r2.dialog, some (.vint mid)) := by
    rw [mkRow_key, hmsg_id]
  refine ⟨hknown, ?_, ?_⟩
  · rw [hst, rowLookup_putRow, hkey]
    rw [if_neg (by simp [hd12])]
  · rw [hst, rowLookup_putRow, hkey]
    rw [if_pos rfl]
    rfl

theorem c10_known_message_last_row_witness :
    knownMessage
        { messages :=
            [{ dialog := 1, id := some (Val.vint 5),
               datetime := some (Val.vstr "100"), text := some (Val.vstr "a"),
               sender := none, media := none, extra := [] },
             { dialog := 2, id := some (Val.vint 5),
               datetime := some (Val.vstr "200"), text := some (Val.vstr "b"),
               sender := none, media := none, extra := [] }],
          dialogs := [], changed := false, commits := 0 } 5 =
      some (getMsg
        { dialog := 2, id := some (Val.vint 5),
          datetime := some (Val.vstr "200"), text := some (Val.vstr "b"),
          sender := none, media := none, extra := [] } true) ∧
    rowLookup
        (setMessageAttributes
          (mkSaver
            { messages :=
                [{ dialog := 1, id := some (Val.vint 5),
                   datetime := some (Val.vstr "100"),
                   text := some (Val.vstr "a"),
                   sender := none, media := none, extra := [] },
                 { dialog := 2, id := some (Val.vint 5),
                   datetime := some (Val.vstr "200"),
                   text := some (Val.vstr "b"),
                   sender := none, media := none, extra := [] }],
              dialogs := [], changed := false, commits := 0 })
          5 [("deleted", Val.vbool true)] false).store.messages
        (1, some (.vint 5)) =
      rowLookup
        [{ dialog := 1, id := some (Val.vint 5),
           datetime := some (Val.vstr "100"), text := some (Val.vstr "a"),
           sender := none, media := none, extra := [] },
         { dialog := 2, id := some (Val.vint 5),
           datetime := some (Val.vstr "200"), text := some (Val.vstr "b"),
           sender := none, media := none, extra := [] }]
        (1, some (.vint 5)) ∧
    (rowLookup
        (setMessageAttributes
          (mkSaver
            { messages :=
                [{ dialog := 1, id := some (Val.vint 5),
                   datetime := some (Val.vstr "100"),
                   text := some (Val.vstr "a"),
                   sender := none, media := none, extra := [] },
                 { dialog := 2, id := some (Val.vint 5),
                   datetime := some (Val.vstr "200"),
                   text := some (Val.vstr "b"),
                   sender := none, media := none, extra := [] }],
              dialogs := [], changed := false, commits := 0 })
          5 [("deleted", Val.vbool true)] false).store.messages
        (2, some (.vint 5))).isSome = true :=
  c10_known_message_last_row
    { messages :=
        [{ dialog := 1, id := some (Val.vint 5),
           datetime := some (Val.vstr "100"), text := some (Val.vstr "a"),
           sender := none, media := none, extra := [] },
         { dialog := 2, id := some (Val.vint 5),
           datetime := some (Val.vstr "200"), text := some (Val.vstr "b"),
           sender := none, media := none, extra := [] }],
      dialogs := [], changed := false, commits := 0 } 5
    { dialog := 1, id := some (Val.vint 5),
      datetime := some (Val.vstr "100"), text := some (Val.vstr "a"),
      sender := none, media := none, extra := [] }
    { dialog := 2, id := some (Val.vint 5),
      datetime := some (Val.vstr "200"), text := some (Val.vstr "b"),
      sender := none, media := none, extra := [] }
    [("deleted", Val.vbool true)] false "200" 200
    (by decide) (by decide) (by decide) (by decide) (by decide) (by decide)
    (by decide) (by decide)

/-- C4: under either stop policy, the message that triggers the exit
condition of a dialog scan is persisted before the loop exits: the exit
conditions are evaluated only after `process_message` has upserted the
message, so the store at loop exit holds a row for the boundary message —
in particular, under the known-id cutoff, the first already-known message
is saved, never skipped. -/
theorem c4_boundary_message_persisted (hashFn : String → String) (d : Int)
    (p : RecentOnly) (msgs : List Obs) :
    ∀ (fs : FS) (s : Saver) (o : Obs),
      stopObs hashFn fs s d msgs p = some o → o.id ≠ 0 →
      (rowLookup (scanDialog hashFn fs s d msgs p).2.store.messages
        (d, some (.vint o.id))).isSome = true := by
  induction msgs with
  | nil => intro fs s o h; cases h
  | cons m rest ih =>
      intro fs s o h hid
      unfold stopObs at h
      unfold scanDialog
      dsimp only at h ⊢
      by_cases hstop : stopsHere p (processMessage hashFn fs s d m).2.2 m = true
      · rw [if_pos hstop] at h ⊢
        injection h with h
        subst h
        exact processMessage_writes_row hashFn fs s d _ hid
      · rw [if_neg hstop] at h ⊢
        exact ih _ _ o h hid

theorem c4_boundary_message_persisted_witness :
    stopObs (fun c => c) []
        { store := emptyStore, knownDialog := some 7,
          known := [(Val.vint 10, histMsg 10 "a" none)], changed := false }
        7 [mkTextObs 10 "b" 3] .rtrue = some (mkTextObs 10 "b" 3) ∧
    (10 : Int) ≠ 0 ∧
    (rowLookup
        (scanDialog (fun c => c) []
          { store := emptyStore, knownDialog := some 7,
            known := [(Val.vint 10, histMsg 10 "a" none)], changed := false }
          7 [mkTextObs 10 "b" 3] .rtrue).2.store.messages
        (7, some (.vint 10))).isSome = true :=
  ⟨by decide, by decide,
   c4_boundary_message_persisted (fun c => c) 7 .rtrue [mkTextObs 10 "b" 3]
     []
     { store := emptyStore, knownDialog := some 7,
       known := [(Val.vint 10, histMsg 10 "a" none)], changed := false }
     (mkTextObs 10 "b" 3) (by decide) (by decide)⟩

/-- C7 fails on the code: `DialogSaver.run` calls `store.save()` once, after
the loop over ALL dialogs — not once per dialog. A backfill over two dialogs
(each with one fresh message) performs exactly one commit, where the claim's
once-per-dialog flushing would perform one per dialog, i.e. two. -/
theorem c7_counterexample_one_flush_per_run :
    (runBackfill (fun c => c) [] (mkSaver emptyStore)
        [⟨1, "A", [mkTextObs 10 "x" 0]⟩, ⟨2, "B", [mkTextObs 20 "y" 0]⟩]
        .rfalse).2.store.commits = 1 ∧
    (runBackfill (fun c => c) [] (mkSaver emptyStore)
        [⟨1, "A", [mkTextObs 10 "x" 0]⟩, ⟨2, "B", [mkTextObs 20 "y" 0]⟩]
        .rfalse).2.store.commits ≠
      ([⟨1, "A", [mkTextObs 10 "x" 0]⟩,
        ⟨2, "B", [mkTextObs 20 "y" 0]⟩] : List DialogIn).length := by
  constructor
  · rfl
  · decide

/-- C7 (amended: the flush happens exactly once per backfill RUN, after all
dialogs are scanned — not once per dialog): no commit happens anywhere
during the scan (neither per message nor per dialog); the run is the scan
followed by a single flush; and flush itself commits exactly when the dirty
flag was set since the last flush, being a no-op otherwise. -/
theorem c7_flush_once_per_run (hashFn : String → String) (fs : FS)
    (s : Saver) (dialogs : List DialogIn) (p : RecentOnly) :
    (scanAll hashFn fs s dialogs p).2.store.commits = s.store.commits ∧
    runBackfill hashFn fs s dialogs p =
      ((scanAll hashFn fs s dialogs p).1,
       { (scanAll hashFn fs s dialogs p).2 with
         store := saveStore (scanAll hashFn fs s dialogs p).2.store }) ∧
    (∀ st : Store, st.changed = false → saveStore st = st) ∧
    (∀ st : Store, st.changed = true →
      saveStore st = { st with changed := false, commits := st.commits + 1 }) := by
  refine ⟨scanAll_commits hashFn dialogs p fs s, rfl, ?_, ?_⟩
  · intro st h; simp [saveStore, h]
  · intro st h; simp [saveStore, h]

theorem c7_flush_once_per_run_witness :
    (scanAll (fun c => c) [] (mkSaver emptyStore)
        [⟨1, "A", [mkTextObs 10 "x" 0]⟩] .rtrue).2.store.commits =
      (mkSaver emptyStore).store.commits ∧
    saveStore { messages := [], dialogs := [], changed := false,
                commits := 3 } =
      { messages := [], dialogs := [], changed := false, commits := 3 } ∧
    saveStore { messages := [], dialogs := [], changed := true,
                commits := 3 } =
      { messages := [], dialogs := [], changed := false, commits := 4 } := by
  have h := c7_flush_once_per_run (fun c => c) [] (mkSaver emptyStore)
    [⟨1, "A", [mkTextObs 10 "x" 0]⟩] .rtrue
  exact ⟨h.1,
    h.2.2.1 { messages := [], dialogs := [], changed := false, commits := 3 }
      (by decide),
    h.2.2.2 { messages := [], dialogs := [], changed := true, commits := 3 }
      (by decide)⟩

/-- C9: re-saving a dialog already in the store under a changed display name
updates the stored name but keeps the stored folder slug (first conjunct);
and across any sequence of further `save_dialog` calls the folder assigned at
first sighting never changes (second conjunct). -/
theorem c9_folder_slug_stable (st : Store) (i : Int) (n0 f0 n : String)
    (saves : List (Int × String))
    (h : lookupA st.dialogs i = some ⟨n0, f0⟩) (hn : n ≠ n0) :
    lookupA (saveDialog st i n).dialogs i = some ⟨n, f0⟩ ∧
    (lookupA
        ((saves.foldl (fun acc pr => saveDialog acc pr.1 pr.2) st)).dialogs
        i).map DialogRec.folder = some f0 := by
  constructor
  · unfold saveDialog
    rw [h]
    dsimp only
    rw [if_pos (by simpa using fun e => hn e.symm)]
    unfold addDialog
    simp only []
    rw [lookupA_setA]
    simp
  · exact foldSaves_folder saves st i f0 (by rw [h]; rfl)

theorem c9_folder_slug_stable_witness :
    lookupA
        (saveDialog
          { messages := [], dialogs := [(5, ⟨"Alice", "alice"⟩)],
            changed := false, commits := 0 } 5 "Alice Smith").dialogs 5 =
      some ⟨"Alice Smith", "alice"⟩ ∧
    (lookupA
        (([((5 : Int), "Alice S."), (6, "Bob"), (5, "Dr. Alice")].foldl
          (fun acc pr => saveDialog acc pr.1 pr.2)
          { messages := [], dialogs := [(5, ⟨"Alice", "alice"⟩)],
            changed := false, commits := 0 })).dialogs 5).map
      DialogRec.folder = some "alice" :=
  ⟨(c9_folder_slug_stable
      { messages := [], dialogs := [(5, ⟨"Alice", "alice"⟩)],
        changed := false, commits := 0 } 5 "Alice" "alice" "Alice Smith"
      [((5 : Int), "Alice S."), (6, "Bob"), (5, "Dr. Alice")]
      (by decide) (by decide)).1,
   (c9_folder_slug_stable
      { messages := [], dialogs := [(5, ⟨"Alice", "alice"⟩)],
        changed := false, commits := 0 } 5 "Alice" "alice" "Alice Smith"
      [((5 : Int), "Alice S."), (6, "Bob"), (5, "Dr. Alice")]
      (by decide) (by decide)).2⟩

/-- C2: when a prior stored version exists, the merge never removes an
attribute the prior version has (first conjunct); an attribute present on the
prior version and absent from the new observation is carried forward with its
prior value whenever it is not the edit-history attribute itself (second
conjunct), and even `prev` is carried verbatim when the text did not change
(third conjunct) — when the text did change, `prev` is still present, with
the prior text appended, per the edit-history rule. -/
theorem c2_merge_never_removes (km msg : Msg) (k : String)
    (hkm : km.isEmpty = false) (h1 : hasKey km k = true) :
    hasKey (checkChanged (some km) msg).1 k = true ∧
    (∀ v, lookupA km k = some v → lookupA msg k = none → k ≠ "prev" →
      lookupA (checkChanged (some km) msg).1 k = some v) ∧
    (∀ v, lookupA km k = some v → lookupA msg k = none →
      pyGet (mergeKnown km msg) "text" = pyGet km "text" →
      lookupA (checkChanged (some km) msg).1 k = some v) := by
  rw [checkChanged_merged km msg hkm]
  refine ⟨?_, ?_, ?_⟩
  · by_cases ht : pyGet (mergeKnown km msg) "text" ≠ pyGet km "text"
    · rw [if_pos ht]
      exact appendPrev_hasKey _ _ _ (mergeKnown_hasKey km msg k h1)
    · rw [if_neg ht]
      exact mergeKnown_hasKey km msg k h1
  · intro v hv hm hp
    by_cases ht : pyGet (mergeKnown km msg) "text" ≠ pyGet km "text"
    · rw [if_pos ht, appendPrev_lookup_ne _ _ _ hp,
        mergeKnown_lookup_old _ _ _ hm]
      exact hv
    · rw [if_neg ht, mergeKnown_lookup_old _ _ _ hm]
      exact hv
  · intro v hv hm ht
    rw [if_neg (by simp [ht]), mergeKnown_lookup_old _ _ _ hm]
    exact hv

theorem c2_merge_never_removes_witness :
    hasKey
        (checkChanged
          (some [("id", Val.vint 1), ("text", Val.vstr "a"),
                 ("ttl", Val.vint 9)])
          [("id", Val.vint 1), ("text", Val.vstr "a")]).1 "ttl" = true ∧
    lookupA
        (checkChanged
          (some [("id", Val.vint 1), ("text", Val.vstr "a"),
                 ("ttl", Val.vint 9)])
          [("id", Val.vint 1), ("text", Val.vstr "a")]).1 "ttl" =
      some (Val.vint 9) := by
  have h := c2_merge_never_removes
    [("id", Val.vint 1), ("text", Val.vstr "a"), ("ttl", Val.vint 9)]
    [("id", Val.vint 1), ("text", Val.vstr "a")] "ttl"
    (by decide) (by decide)
  exact ⟨h.1, h.2.1 (Val.vint 9) (by decide) (by decide) (by decide)⟩

/-- C3 falls on the empty string: `process_message` drops falsy attributes,
so an observation whose text is `""` contributes no text at all; the merge
then carries the prior text forward and no history entry is appended. Three
pairwise-distinct texts "a", "", "b" yield one history entry, not two. -/
theorem c3_counterexample_empty_text :
    ["a", "", "b"].Nodup ∧
    lookupA
        ((lookupA (processTexts (fun c => c) 7 1 ["a", "", "b"]).known
          (.vint 1)).getD []) "prev" = some (.vlist [some "a"]) ∧
    [some "a"].length ≠ ["a", "", "b"].length - 1 := by decide

/-- C3 (amended: the N text values must also be non-empty, since a falsy
text is dropped from the observation before the merge): processing
observations with N pairwise-distinct non-empty texts leaves the
edit-history attribute holding exactly the first N−1 texts, in
chronological order — each entry the text that was current before the
corresponding edit — and the current text is the last one; for N = 1 the
attribute is absent. -/
theorem c3_edit_history (hashFn : String → String) (d i : Int)
    (t0 : String) (ts : List String)
    (hi : i ≠ 0) (h0 : t0 ≠ "") (hts : ∀ t ∈ ts, t ≠ "")
    (hdist : (t0 :: ts).Nodup) :
    lookupA
        ((lookupA (processTexts hashFn d i (t0 :: ts)).known (.vint i)).getD [])
        "prev" =
      (match ts with
       | [] => none
       | _ :: _ => some (.vlist ((t0 :: ts).dropLast.map some))) ∧
    lookupA
        ((lookupA (processTexts hashFn d i (t0 :: ts)).known (.vint i)).getD [])
        "text" = some (.vstr (ts.getLastD t0)) := by
  have hkl : (knownLoad (mkSaver emptyStore) d).2 = [] := by
    simp [knownLoad, mkSaver, emptyStore, knownMessages, buildDictV]
  have hstep := step_first hashFn [] (mkSaver emptyStore) d i t0 hi h0 hkl
  have hchain : List.Chain' (· ≠ ·) (t0 :: ts) := List.Pairwise.chain' hdist
  have hfold :
      processTexts hashFn d i (t0 :: ts) =
        (foldTexts hashFn d i
          ((processMessage hashFn [] (mkSaver emptyStore) d
              (mkTextObs i t0 0)).1,
           (processMessage hashFn [] (mkSaver emptyStore) d
              (mkTextObs i t0 0)).2.1) ts).2 := by
    simp [processTexts, foldTexts]
  have h := foldTexts_inv hashFn d i hi ts t0 none
    (processMessage hashFn [] (mkSaver emptyStore) d (mkTextObs i t0 0)).1
    (processMessage hashFn [] (mkSaver emptyStore) d (mkTextObs i t0 0)).2.1
    hstep.2 hstep.1 hts hchain
  rw [hfold, h]
  cases ts with
  | nil => simp [histMsg, lookupA]
  | cons a b => simp [histMsg, lookupA]

theorem c3_edit_history_witness :
    (1 : Int) ≠ 0 ∧ ("a" : String) ≠ "" ∧ ["a", "b", "c"].Nodup ∧
    lookupA
        ((lookupA (processTexts (fun c => c) 7 1 ["a", "b", "c"]).known
          (.vint 1)).getD []) "prev" =
      some (.vlist [some "a", some "b"]) := by
  have h := c3_edit_history (fun c => c) 7 1 "a" ["b", "c"]
    (by decide) (by decide) (by decide) (by decide)
  exact ⟨by decide, by decide, by decide, h.1⟩

/-- C6: a message lacking a timestamp attribute makes `add_msg` perform no
write at all: no insert is executed and the store's state — rows, dialog
table, dirty flag, commit count — is exactly what it was. -/
theorem c6_missing_timestamp_no_write (st : Store) (d : Int) (m : Msg)
    (h : hasKey m "datetime" = false) : addMsg st d m = st :=
  addMsg_of_no_datetime st d m h

theorem c6_missing_timestamp_no_write_witness :
    hasKey [("id", Val.vint 1), ("text", Val.vstr "hi")] "datetime" = false ∧
    addMsg { messages := [], dialogs := [], changed := false, commits := 0 } 7
        [("id", Val.vint 1), ("text", Val.vstr "hi")] =
      { messages := [], dialogs := [], changed := false, commits := 0 } :=
  ⟨by decide,
   c6_missing_timestamp_no_write
     { messages := [], dialogs := [], changed := false, commits := 0 } 7
     [("id", Val.vint 1), ("text", Val.vstr "hi")] (by decide)⟩

/-- C1 fails as stated: reprocessing an observation identical to the stored
message does perform a store write. Even though the observation assembles to
exactly the stored record (first conjunct) and the change detector reports no
difference (second conjunct), `process_message` executes `add_msg`
unconditionally, so the store's flush dirty flag — initially clear — is set
(third conjunct), and the following flush performs a transaction commit
(fourth conjunct: the commit count rises from 0 to 1). -/
theorem c1_counterexample_reprocess_writes :
    assembleMsg (fun c => c) []
        { store :=
            { messages :=
                [{ dialog := 7, id := some (Val.vint 1),
                   datetime := some (Val.vstr "5"),
                   text := some (Val.vstr "hi"), sender := none,
                   media := none, extra := [] }],
              dialogs := [], changed := false, commits := 0 },
          knownDialog := some 7,
          known := [((Val.vint 1),
            [("id", Val.vint 1), ("text", Val.vstr "hi"),
             ("datetime", Val.vtime 5)])],
          changed := false } 7
        { id := 1, text := "hi", sender := none, date := 5, silent := false,
          fromScheduled := false, editDate := none, media := none } =
      ([],
       { store :=
           { messages :=
               [{ dialog := 7, id := some (Val.vint 1),
                  datetime := some (Val.vstr "5"),
                  text := some (Val.vstr "hi"), sender := none,
                  media := none, extra := [] }],
             dialogs := [], changed := false, commits := 0 },
         knownDialog := some 7,
         known := [((Val.vint 1),
           [("id", Val.vint 1), ("text", Val.vstr "hi"),
            ("datetime", Val.vtime 5)])],
         changed := false },
       [("id", Val.vint 1), ("text", Val.vstr "hi"),
        ("datetime", Val.vtime 5)]) ∧
    (checkChanged
        (lookupA [((Val.vint 1),
          [("id", Val.vint 1), ("text", Val.vstr "hi"),
           ("datetime", Val.vtime 5)])] (Val.vint 1))
        [("id", Val.vint 1), ("text", Val.vstr "hi"),
         ("datetime", Val.vtime 5)]).2 = false ∧
    (processMessage (fun c => c) []
        { store :=
            { messages :=
                [{ dialog := 7, id := some (Val.vint 1),
                   datetime := some (Val.vstr "5"),
                   text := some (Val.vstr "hi"), sender := none,
                   media := none, extra := [] }],
              dialogs := [], changed := false, commits := 0 },
          knownDialog := some 7,
          known := [((Val.vint 1),
            [("id", Val.vint 1), ("text", Val.vstr "hi"),
             ("datetime", Val.vtime 5)])],
          changed := false } 7
        { id := 1, text := "hi", sender := none, date := 5, silent := false,
          fromScheduled := false, editDate := none,
          media := none }).2.1.store.changed = true ∧
    (saveStore
        (processMessage (fun c => c) []
          { store :=
              { messages :=
                  [{ dialog := 7, id := some (Val.vint 1),
                     datetime := some (Val.vstr "5"),
                     text := some (Val.vstr "hi"), sender := none,
                     media := none, extra := [] }],
                dialogs := [], changed := false, commits := 0 },
            knownDialog := some 7,
            known := [((Val.vint 1),
              [("id", Val.vint 1), ("text", Val.vstr "hi"),
               ("datetime", Val.vtime 5)])],
            changed := false } 7
          { id := 1, text := "hi", sender := none, date := 5,
            silent := false, fromScheduled := false, editDate := none,
            media := none }).2.1.store).commits = 1 := by decide

/-- C1 (amended: reprocessing an identical observation sets no dirty flag on
the change detector, leaves the message table, the dialog cache and the
filesystem unchanged — but it does NOT leave the store's flush state
untouched: `process_message` executes the insert-or-replace unconditionally,
so the store's flush dirty flag is set and the next flush performs a commit
even though no row changed). The first five conjuncts are the preserved
part; the final guarded conjunct is the store write the original claim
denied. -/
theorem c1_identical_reprocess_effects
    (hashFn : String → String) (fs : FS) (s : Saver) (d : Int) (o : Obs)
    (m : Msg)
    (hdialog : s.knownDialog = some d)
    (hcache : lookupA s.known (.vint o.id) = some m)
    (hm : m.isEmpty = false)
    (hassemble : assembleMsg hashFn fs s d o = (fs, s, m))
    (hrow : rowLookup s.store.messages (d, lookupA m "id") = some (mkRow d m)) :
    (checkChanged (lookupA s.known (.vint o.id)) m).2 = false ∧
    (processMessage hashFn fs s d o).2.1.store.messages = s.store.messages ∧
    (processMessage hashFn fs s d o).2.1.changed = s.changed ∧
    (processMessage hashFn fs s d o).2.1.known = s.known ∧
    (processMessage hashFn fs s d o).1 = fs ∧
    (hasKey m "datetime" = true →
      (processMessage hashFn fs s d o).2.1.store.changed = true ∧
      (saveStore (processMessage hashFn fs s d o).2.1.store).commits =
        s.store.commits + 1) := by
  have hcc : checkChanged (lookupA s.known (.vint o.id)) m = (m, false) := by
    rw [hcache]; exact checkChanged_self m hm
  have hload : knownLoad s d = (s, s.known) := by
    simp [knownLoad, hdialog]
  have hproc : processMessage hashFn fs s d o =
      (fs,
       { store := addMsg s.store d m, knownDialog := some d,
         known := setA s.known (.vint o.id) m,
         changed := s.changed || false },
       (lookupA s.known (.vint o.id)).isSome) := by
    unfold processMessage
    rw [hassemble]
    simp only [hload, hcc]
  have hmessages : (addMsg s.store d m).messages = s.store.messages := by
    by_cases hd : hasKey m "datetime"
    · rw [addMsg_messages_of_datetime _ _ _ hd]
      have : rowLookup s.store.messages (rowKey (mkRow d m)) = some (mkRow d m) := by
        rw [mkRow_key]; exact hrow
      exact putRow_self _ _ this
    · simp only [Bool.not_eq_true] at hd
      rw [addMsg_of_no_datetime _ _ _ hd]
  refine ⟨by rw [hcc], ?_, ?_, ?_, ?_, ?_⟩
  · rw [hproc]; exact hmessages
  · rw [hproc]; simp
  · rw [hproc]
    simp only []
    exact setA_self _ _ _ hcache
  · rw [hproc]
  · intro hdt
    rw [hproc]
    dsimp only
    have hch : (addMsg s.store d m).changed = true := by
      simp [addMsg, hdt]
    refine ⟨hch, ?_⟩
    simp [saveStore, hch, addMsg_commits]

theorem c1_identical_reprocess_effects_witness :
    (checkChanged
        (lookupA [((Val.vint 1),
          [("id", Val.vint 1), ("text", Val.vstr "hi"),
           ("datetime", Val.vtime 5)])] (Val.vint 1))
        [("id", Val.vint 1), ("text", Val.vstr "hi"),
         ("datetime", Val.vtime 5)]).2 = false ∧
    (processMessage (fun c => c) []
        { store :=
            { messages :=
                [{ dialog := 7, id := some (Val.vint 1),
                   datetime := some (Val.vstr "5"),
                   text := some (Val.vstr "hi"), sender := none,
                   media := none, extra := [] }],
              dialogs := [], changed := false, commits := 0 },
          knownDialog := some 7,
          known := [((Val.vint 1),
            [("id", Val.vint 1), ("text", Val.vstr "hi"),
             ("datetime", Val.vtime 5)])],
          changed := false } 7
        { id := 1, text := "hi", sender := none, date := 5, silent := false,
          fromScheduled := false, editDate := none,
          media := none }).2.1.store.messages =
      [{ dialog := 7, id := some (Val.vint 1),
         datetime := some (Val.vstr "5"),
         text := some (Val.vstr "hi"), sender := none,
         media := none, extra := [] }] ∧
    (processMessage (fun c => c) []
        { store :=
            { messages :=
                [{ dialog := 7, id := some (Val.vint 1),
                   datetime := some (Val.vstr "5"),
                   text := some (Val.vstr "hi"), sender := none,
                   media := none, extra := [] }],
              dialogs := [], changed := false, commits := 0 },
          knownDialog := some 7,
          known := [((Val.vint 1),
            [("id", Val.vint 1), ("text", Val.vstr "hi"),
             ("datetime", Val.vtime 5)])],
          changed := false } 7
        { id := 1, text := "hi", sender := none, date := 5, silent := false,
          fromScheduled := false, editDate := none,
          media := none }).2.1.store.changed = true ∧
    (saveStore
        (processMessage (fun c => c) []
          { store :=
              { messages :=
                  [{ dialog := 7, id := some (Val.vint 1),
                     datetime := some (Val.vstr "5"),
                     text := some (Val.vstr "hi"), sender := none,
                     media := none, extra := [] }],
                dialogs := [], changed := false, commits := 0 },
            knownDialog := some 7,
            known := [((Val.vint 1),
              [("id", Val.vint 1), ("text", Val.vstr "hi"),
               ("datetime", Val.vtime 5)])],
            changed := false } 7
          { id := 1, text := "hi", sender := none, date := 5,
            silent := false, fromScheduled := false, editDate := none,
            media := none }).2.1.store).commits = 0 + 1 := by
  have h := c1_identical_reprocess_effects (fun c => c) []
    { store :=
        { messages :=
            [{ dialog := 7, id := some (Val.vint 1),
               datetime := some (Val.vstr "5"),
               text := some (Val.vstr "hi"), sender := none,
               media := none, extra := [] }],
          dialogs := [], changed := false, commits := 0 },
      knownDialog := some 7,
      known := [((Val.vint 1),
        [("id", Val.vint 1), ("text", Val.vstr "hi"),
         ("datetime", Val.vtime 5)])],
      changed := false } 7
    { id := 1, text := "hi", sender := none, date := 5, silent := false,
      fromScheduled := false, editDate := none, media := none }
    [("id", Val.vint 1), ("text", Val.vstr "hi"), ("datetime", Val.vtime 5)]
    (by decide) (by decide) (by decide) (by decide) (by decide)
  exact ⟨h.1, h.2.1, (h.2.2.2.2.2 (by decide)).1, (h.2.2.2.2.2 (by decide)).2⟩

end Telesaver
